import Mathlib

/-!
Verification development for the SteamCharts year-scoped scrape-cache-parse-classify
pipeline (`modules/get_data.py`).

The Python source is shallowly embedded:
* pure functions (`clean_num`, `parse_year_data_from_html`, `load_input_csv`) become
  Lean functions;
* page HTML is modelled by the list of monthly-table rows that BeautifulSoup's
  `soup.select("table.common-table tbody tr")` extracts from it, each row being the
  list of its `td` cell texts (`get_text(" ", strip=True)` results).  A page whose
  monthly table is absent is modelled by the empty row list;
* the on-disk HTML cache becomes an association list from cache key to page content,
  threaded explicitly through the collectors; the md5 digest `cache_key_for_url` is
  modelled by an abstract key function `keyFn : String → String` passed to the
  fetcher (its definition lives in `hashlib`, outside this repository; the spec only
  relies on it being deterministic and collision-free);
* the network (`requests.Session.get` + `raise_for_status`) becomes a function
  `net : String → Except RequestError Html` from URL to fetched content or error;
* Python floats become `ℚ`; a raising Python call becomes `Except.error`.
-/

deriving instance DecidableEq for Except

namespace SteamCharts

/-- Per-row outcome classification used by `collect_one_year`. -/
inductive Status where
  | ok
  | no_data_for_year
  | request_error
  | parse_error
deriving DecidableEq, Repr

/-- Models `requests.exceptions.RequestException` / a non-success HTTP status
raised by `resp.raise_for_status()`. -/
structure RequestError where
  msg : String
deriving DecidableEq, Repr

/-- Models an exception escaping `parse_year_data_from_html`. -/
structure ParseError where
  msg : String
deriving DecidableEq, Repr

/-- Models the `ValueError` raised by `load_input_csv` on a malformed roster CSV. -/
structure ValidationError where
  msg : String
deriving DecidableEq, Repr

/-- A page's monthly-table rows: each row is the list of its `td` cell texts. -/
abbrev Html := List (List String)

/-- The on-disk HTML cache: cache-file key ↦ stored page content.  A write is a
`cons` (newest binding first), a read is the first binding for the key. -/
abbrev Cache := List (String × Html)

/-- One parsed monthly-statistics record (output shape of
`parse_year_data_from_html`). -/
structure MonthRecord where
  month : String
  avg_players : Option ℚ
  peak_players : Option ℚ
deriving DecidableEq, Repr

/-- One output row of `collect_one_year` (the eight-column schema). -/
structure OutputRow where
  year : Int
  rank : Int
  name : String
  appid : Int
  month : Option String
  avg_players : Option ℚ
  peak_players : Option ℚ
  status : Status
deriving DecidableEq, Repr

/-- A pandas DataFrame of output rows: its column labels plus its rows. -/
structure DataFrame where
  columns : List String
  rows : List OutputRow
deriving DecidableEq, Repr

/-- One validated roster entry (a row of the cleaned DataFrame returned by
`load_input_csv`). -/
structure Game where
  rank : Int
  name : String
  appid : Int
deriving DecidableEq, Repr

/-- A roster CSV as `pd.read_csv` sees it: column labels and the cell texts of
each data row (cells aligned with `columns`). -/
structure InputCsv where
  columns : List String
  rows : List (List String)
deriving DecidableEq, Repr

/-! ## Numeric text parsing (`clean_num` and the numeric cells of the roster) -/

/-- Decimal value of a digit list (most significant first). -/
def digitsNat (cs : List Char) : Nat :=
  cs.foldl (fun a c => a * 10 + (c.toNat - 48)) 0

/-- Exponent part of a float literal: optional sign then a nonempty digit run. -/
def expVal (cs : List Char) : Option Int :=
  let p : Int × List Char :=
    match cs with
    | '+' :: r => (1, r)
    | '-' :: r => (-1, r)
    | r => (1, r)
  if p.2 = [] ∨ ¬ p.2.all Char.isDigit then none
  else some (p.1 * (digitsNat p.2 : Int))

/-- Mantissa-and-exponent part of a Python float literal, after the sign:
`digits [. digits] [(e|E) exp]` or `. digits [(e|E) exp]`, requiring the whole
input to be consumed. -/
def pyFloatBody (cs : List Char) : Option ℚ :=
  let ip := cs.takeWhile Char.isDigit
  let r₁ := cs.dropWhile Char.isDigit
  match r₁ with
  | [] => if ip = [] then none else some ((digitsNat ip : ℚ))
  | '.' :: r₂ =>
    let fp := r₂.takeWhile Char.isDigit
    let r₃ := r₂.dropWhile Char.isDigit
    if ip = [] ∧ fp = [] then none
    else
      let mant : ℚ := (digitsNat ip : ℚ) + (digitsNat fp : ℚ) / ((10 : ℚ) ^ fp.length)
      match r₃ with
      | [] => some mant
      | e :: r₄ =>
        if e = 'e' ∨ e = 'E' then (expVal r₄).map (fun ex => mant * (10 : ℚ) ^ ex)
        else none
  | e :: r₄ =>
    if (e = 'e' ∨ e = 'E') ∧ ip ≠ [] then
      (expVal r₄).map (fun ex => (digitsNat ip : ℚ) * (10 : ℚ) ^ ex)
    else none

/-- Models Python's `float(text)`: surrounding whitespace is ignored, then an
optional sign and a decimal/scientific literal; anything else (the source of
`ValueError`) is `none`.  `inf`/`nan` literals and `_` digit grouping are not
modelled (no numeric cell of the scraped table uses them). -/
def pyFloat (s : String) : Option ℚ :=
  let cs := s.trim.toList
  match cs with
  | '+' :: r => pyFloatBody r
  | '-' :: r => (pyFloatBody r).map (fun q => -q)
  | r => pyFloatBody r

/-- `clean_num` from the source: convert scraped numeric text to an optional
number — strip, remove comma thousands separators, map blank/dash placeholders
to `None`, and return `None` instead of raising when `float()` fails. -/
def clean_num (value : Option String) : Option ℚ :=
  match value with
  | none => none
  | some v =>
    let text := (v.trim).replace "," ""
    if text = "" ∨ text = "-" ∨ text = "—" then none
    else pyFloat text

/-! ## Month-cell parsing (`pd.to_datetime(..., format="%B %Y", errors="coerce")`) -/

/-- The locale's full month names, lower-cased, in calendar order (what `%B`
matches; strptime month matching is case-insensitive). -/
def monthNames : List String :=
  ["january", "february", "march", "april", "may", "june",
   "july", "august", "september", "october", "november", "december"]

/-- Index of the first occurrence of `m` in the name list. -/
def monthIdx : List String → String → Option Nat
  | [], _ => none
  | n :: tl, m => if m = n then some 0 else (monthIdx tl m).map (· + 1)

/-- Full English month name (already lower-cased) to month number 1..12. -/
def monthNumber (m : String) : Option Nat :=
  (monthIdx monthNames m).map (· + 1)

/-- Models `pd.to_datetime(s, format="%B %Y", errors="coerce")`: a full month
name, one or more spaces (the format's literal blank matches `\s+`), and exactly
four digits, consuming the whole string; out-of-range results (outside the
`pd.Timestamp` range 1677-10 .. 2262-04) coerce to `NaT`, i.e. `none`. -/
def parseMonthYear (s : String) : Option (Int × Nat) :=
  let cs := s.toList
  let mPart := cs.takeWhile (fun c => c ≠ ' ')
  let rest := cs.dropWhile (fun c => c ≠ ' ')
  let spaces := rest.takeWhile (fun c => c = ' ')
  let yPart := rest.dropWhile (fun c => c = ' ')
  if spaces = [] then none
  else if ¬ (yPart.length = 4 ∧ yPart.all Char.isDigit) then none
  else
    match monthNumber (String.mk mPart).toLower with
    | none => none
    | some m =>
      let y : Int := (digitsNat yPart : Int)
      if 1677 * 12 + 10 ≤ y * 12 + (m : Int) ∧ y * 12 + (m : Int) ≤ 2262 * 12 + 4 then
        some (y, m)
      else none

/-- `month_dt.strftime("%Y-%m")`: the `"YYYY-MM"` month key (the year is four
digits for every representable `pd.Timestamp`, the month is zero-padded). -/
def formatYM (y : Int) (m : Nat) : String :=
  toString y ++ "-" ++ (if m < 10 then "0" ++ toString m else toString m)

/-! ## `parse_year_data_from_html` -/

/-- The per-`tr` step of `parse_year_data_from_html`'s loop: `none` when the row
is skipped (fewer than 5 cells, the "Last 30 Days" rolling row, an unparseable
month cell, or a year other than the target), otherwise the parsed record. -/
def parseRowCells (cells : List String) (target_year : Int) : Option MonthRecord :=
  if cells.length < 5 then none
  else if (cells.getD 0 "").toLower = "last 30 days" then none
  else
    match parseMonthYear (cells.getD 0 "") with
    | none => none
    | some (y, m) =>
      if y = target_year then
        some ⟨formatYM y m,
              clean_num (some (cells.getD 1 "")),
              clean_num (some (cells.getD 4 ""))⟩
      else none

/-- Ordering used by the final `parsed_rows.sort(key=lambda r: r["month"])`. -/
def recLe (a b : MonthRecord) : Prop := a.month ≤ b.month

instance : DecidableRel recLe := fun a b => by
  unfold recLe; infer_instance

instance : IsTotal MonthRecord recLe := ⟨fun a b => le_total a.month b.month⟩

instance : IsTrans MonthRecord recLe := ⟨fun _ _ _ h₁ h₂ => le_trans h₁ h₂⟩

/-- `parse_year_data_from_html` from the source: filter the monthly-table rows
down to the target year's records and return them sorted by their `"YYYY-MM"`
month key. -/
def parse_year_data_from_html (html : Html) (target_year : Int) : List MonthRecord :=
  List.insertionSort recLe (html.filterMap (fun cells => parseRowCells cells target_year))

/-- The body of `parse_year_data_from_html` is built solely from non-raising
operations (`soup.select` returns `[]` when the table is absent, `to_datetime`
uses `errors="coerce"`, cell indexing is guarded by the length check), so the
parse step never raises; this wrapper exposes it with the fallible signature
that `collect_one_year`'s `try/except` consumes. -/
def parseResult (html : Html) (target_year : Int) : Except ParseError (List MonthRecord) :=
  .ok (parse_year_data_from_html html target_year)

/-! ## Network + cache (`build_game_url`, `get_game_page_html`) -/

/-- `build_game_url` from the source: inject the appid into the SteamCharts URL
template. -/
def build_game_url (appid : Int) : String :=
  "https://steamcharts.com/app/" ++ toString appid

/-- First binding for `k` in the cache (whether the cache file for key `k`
exists, and its content). -/
def cacheLookup : Cache → String → Option Html
  | [], _ => none
  | (k', v) :: c, k => if k' = k then some v else cacheLookup c k

/-- Result of one `get_game_page_html` call.  `usedNetwork` records whether
`session.get` was invoked, `slept` whether `time.sleep(request_delay_sec)` ran
(the delay value itself does not affect any dataflow). -/
structure FetchResult where
  html : Html
  cache : Cache
  usedNetwork : Bool
  slept : Bool
deriving DecidableEq, Repr

/-- `get_game_page_html` from the source: on a cache hit with `use_cache` the
stored content is returned untouched; otherwise the network is consulted
(propagating its error, which models `raise_for_status`/network exceptions),
the content is persisted under the URL's key, and the delay is slept.
`keyFn` stands for `cache_key_for_url` (the md5 hex digest of the URL). -/
def get_game_page_html (appid : Int) (net : String → Except RequestError Html)
    (keyFn : String → String) (cache : Cache) (use_cache : Bool) :
    Except RequestError FetchResult :=
  let url := build_game_url appid
  let key := keyFn url
  let fresh : Except RequestError FetchResult :=
    match net url with
    | .error e => .error e
    | .ok h => .ok ⟨h, (key, h) :: cache, true, true⟩
  match cacheLookup cache key, use_cache with
  | some h, true => .ok ⟨h, cache, false, false⟩
  | some _, false => fresh
  | none, _ => fresh

/-- One observable event of a `get_game_page_html` call: which key it targeted,
whether it invoked the network loader, and whether it returned content (rather
than raising). -/
structure FetchEvent where
  appid : Int
  key : String
  usedNetwork : Bool
  succeeded : Bool
deriving DecidableEq, Repr

/-- A sequence of `get_game_page_html` calls threading the cache, recording one
event per call (an erroring call used the network: only `session.get` can
raise here).  This is the "repeated calls" driver the cache contract is stated
over. -/
def fetchMany (net : String → Except RequestError Html) (keyFn : String → String)
    (use_cache : Bool) : List Int → Cache → List FetchEvent × Cache
  | [], cache => ([], cache)
  | a :: tl, cache =>
    match get_game_page_html a net keyFn cache use_cache with
    | .error _ =>
      let rest := fetchMany net keyFn use_cache tl cache
      (⟨a, keyFn (build_game_url a), true, false⟩ :: rest.1, rest.2)
    | .ok fr =>
      let rest := fetchMany net keyFn use_cache tl fr.cache
      (⟨a, keyFn (build_game_url a), fr.usedNetwork, true⟩ :: rest.1, rest.2)

/-! ## Roster loading (`load_input_csv`) -/

/-- `pd.to_numeric(col, errors="raise").astype(int)` on one cell: parse as a
number, then truncate toward zero. -/
def parseIntCell (s : String) : Option Int :=
  (pyFloat s).map (fun q => if 0 ≤ q then ⌊q⌋ else ⌈q⌉)

/-- Numeric conversion of the `rank` and `appid` columns (the whole conversion
fails — pandas raises — when any cell fails); names are stripped afterwards. -/
def loadRows : List (String × String × String) → Option (List Game)
  | [] => some []
  | (r, n, a) :: tl =>
    match parseIntCell r, parseIntCell a, loadRows tl with
    | some ri, some ai, some gs => some ({ rank := ri, name := n.trim, appid := ai } :: gs)
    | _, _, _ => none

/-- `df.drop_duplicates(subset=["rank", "appid"])`: keep the first row for each
`(rank, appid)` pair. -/
def dedupFirst : List Game → List (Int × Int) → List Game
  | [], _ => []
  | g :: tl, seen =>
    if (g.rank, g.appid) ∈ seen then dedupFirst tl seen
    else g :: dedupFirst tl ((g.rank, g.appid) :: seen)

/-- Ordering of `df.sort_values("rank")`. -/
def gameLe (a b : Game) : Prop := a.rank ≤ b.rank

instance : DecidableRel gameLe := fun a b => by
  unfold gameLe; infer_instance

/-- The three required roster columns. -/
def requiredColumns : List String := ["rank", "name", "appid"]

/-- `load_input_csv` from the source: validate the required columns (raising
`ValueError` when one is missing), coerce `rank`/`appid` to integers (raising
on non-numeric cells), strip names and drop empty ones, drop duplicate
`(rank, appid)` pairs keeping the first, and sort by rank. -/
def load_input_csv (csv : InputCsv) : Except ValidationError (List Game) :=
  if requiredColumns.all (fun c => csv.columns.contains c) then
    match loadRows (csv.rows.map (fun r =>
        (r.getD (csv.columns.indexOf "rank") "",
         r.getD (csv.columns.indexOf "name") "",
         r.getD (csv.columns.indexOf "appid") ""))) with
    | none => .error ⟨"non-numeric rank or appid"⟩
    | some games =>
      .ok (List.insertionSort gameLe
        (dedupFirst (games.filter (fun g => g.name ≠ "")) []))
  else .error ⟨"missing required columns"⟩

/-! ## Year collection (`collect_one_year`) -/

/-- The sentinel row emitted for a game with no per-month data (failure or an
empty year). -/
def sentinelRow (year : Int) (g : Game) (st : Status) : OutputRow :=
  ⟨year, g.rank, g.name, g.appid, none, none, none, st⟩

/-- One `status="ok"` row: the roster entry's metadata plus one parsed monthly
record. -/
def okRow (year : Int) (g : Game) (pr : MonthRecord) : OutputRow :=
  ⟨year, g.rank, g.name, g.appid, some pr.month, pr.avg_players, pr.peak_players, .ok⟩

/-- Boolean month comparison of the final
`sort_values(by=["rank", "month"], na_position="last")`: absent months sort
last. -/
def monthKeyLe : Option String → Option String → Bool
  | none, none => true
  | none, some _ => false
  | some _, none => true
  | some u, some v => decide (u ≤ v)

/-- Row ordering of the final sort: by rank, then by month with `None` last. -/
def rowLe (a b : OutputRow) : Prop :=
  a.rank < b.rank ∨ (a.rank = b.rank ∧ monthKeyLe a.month b.month = true)

instance : DecidableRel rowLe := fun a b => by
  unfold rowLe; infer_instance

/-- The final `result_df.sort_values(by=["rank", "month"], na_position="last")`. -/
def sortOutputRows (rows : List OutputRow) : List OutputRow :=
  List.insertionSort rowLe rows

/-- The per-game loop of `collect_one_year`, generic in the (fallible) parse
call so that the `except`-branch classification can be stated for an arbitrary
parser outcome; `collect_one_year` instantiates it with `parseResult`.  Each
iteration fetches (converting a raised `RequestError` into one sentinel row and
continuing), parses (converting a raised `ParseError` into one sentinel row and
continuing), and otherwise emits one `no_data_for_year` sentinel or one `ok`
row per parsed month. -/
def collectRows (parserFn : Html → Int → Except ParseError (List MonthRecord))
    (year : Int) (net : String → Except RequestError Html) (keyFn : String → String)
    (use_cache : Bool) : List Game → Cache → List OutputRow × Cache
  | [], cache => ([], cache)
  | g :: tl, cache =>
    match get_game_page_html g.appid net keyFn cache use_cache with
    | .error _ =>
      let rest := collectRows parserFn year net keyFn use_cache tl cache
      (sentinelRow year g .request_error :: rest.1, rest.2)
    | .ok fr =>
      match parserFn fr.html year with
      | .error _ =>
        let rest := collectRows parserFn year net keyFn use_cache tl fr.cache
        (sentinelRow year g .parse_error :: rest.1, rest.2)
      | .ok [] =>
        let rest := collectRows parserFn year net keyFn use_cache tl fr.cache
        (sentinelRow year g .no_data_for_year :: rest.1, rest.2)
      | .ok (pr :: prs) =>
        let rest := collectRows parserFn year net keyFn use_cache tl fr.cache
        (((pr :: prs).map (okRow year g)) ++ rest.1, rest.2)

/-- The eight-column output schema. -/
def output_columns : List String :=
  ["year", "rank", "name", "appid", "month", "avg_players", "peak_players", "status"]

/-- `collect_one_year` from the source: load and validate the roster (a
malformed roster raises out of the function), run the per-game loop threading
the HTML cache, and return the rows sorted by rank then month (absent months
last) under the eight-column schema, together with the final cache state. -/
def collect_one_year (input_csv : InputCsv) (year : Int)
    (net : String → Except RequestError Html) (keyFn : String → String)
    (cache : Cache) (use_cache : Bool) :
    Except ValidationError (DataFrame × Cache) :=
  match load_input_csv input_csv with
  | .error e => .error e
  | .ok games =>
    let p := collectRows parseResult year net keyFn use_cache games cache
    .ok (⟨output_columns, sortOutputRows p.1⟩, p.2)

/-- The number of qualifying monthly records each roster entry contributes,
mirroring the dynamic run: `0` for a failed fetch, otherwise the length of the
year-filtered parse of the fetched page. -/
def qual_counts (year : Int) (net : String → Except RequestError Html)
    (keyFn : String → String) (use_cache : Bool) : List Game → Cache → List Nat
  | [], _ => []
  | g :: tl, cache =>
    match get_game_page_html g.appid net keyFn cache use_cache with
    | .error _ => 0 :: qual_counts year net keyFn use_cache tl cache
    | .ok fr =>
      (parse_year_data_from_html fr.html year).length ::
        qual_counts year net keyFn use_cache tl fr.cache

/-! ## Year-range orchestration (`collect_year_range`) -/

/-- The inclusive ascending year range `range(start_year, end_year + 1)`. -/
def yearList (start_year end_year : Int) : List Int :=
  (List.range (end_year + 1 - start_year).toNat).map
    (fun (i : Nat) => start_year + (i : Int))

/-- The per-year loop of `collect_year_range`: skip a year whose roster file is
absent (`rosters y = none`), otherwise run `collect_one_year` (propagating a
roster-validation error) and accumulate the year's DataFrame (also the content
of that year's written CSV). -/
def collectYears (rosters : Int → Option InputCsv)
    (net : String → Except RequestError Html) (keyFn : String → String)
    (use_cache : Bool) : List Int → Cache →
    Except ValidationError (List (Int × DataFrame) × Cache)
  | [], cache => .ok ([], cache)
  | y :: tl, cache =>
    match rosters y with
    | none => collectYears rosters net keyFn use_cache tl cache
    | some csv =>
      match collect_one_year csv y net keyFn cache use_cache with
      | .error e => .error e
      | .ok (df, cache') =>
        match collectYears rosters net keyFn use_cache tl cache' with
        | .error e => .error e
        | .ok (parts, cache₂) => .ok ((y, df) :: parts, cache₂)

/-- `pd.concat(all_parts, ignore_index=True)`, or the explicit empty DataFrame
with the full schema when no year was processed. -/
def combineParts (parts : List (Int × DataFrame)) : DataFrame :=
  if parts.isEmpty then ⟨output_columns, []⟩
  else ⟨output_columns, (parts.map (fun p => p.2.rows)).flatten⟩

/-- `collect_year_range` from the source: iterate the inclusive year range in
ascending order, skipping years with no roster file, and return the combined
dataset, the per-year datasets that were written, and the final cache state.
The `write_combined` flag only controls whether the combined dataset is also
written to its own CSV — the written content is the returned combined
DataFrame either way, so the flag affects no dataflow here. -/
def collect_year_range (start_year end_year : Int) (rosters : Int → Option InputCsv)
    (net : String → Except RequestError Html) (keyFn : String → String)
    (cache : Cache) (use_cache _write_combined : Bool) :
    Except ValidationError (DataFrame × List (Int × DataFrame) × Cache) :=
  match collectYears rosters net keyFn use_cache (yearList start_year end_year) cache with
  | .error e => .error e
  | .ok (parts, cache₂) => .ok (combineParts parts, parts, cache₂)

/-! ## Row observables -/

/-- Whether an output row belongs to a given roster entry (entries of a
validated roster are uniquely identified by their `(rank, appid)` pair). -/
def isForGame (g : Game) (r : OutputRow) : Bool :=
  r.rank == g.rank && r.appid == g.appid

/-- Whether an output row is the sentinel row of a given roster entry with the
given status: month, average and peak are all absent. -/
def isSentinelFor (g : Game) (st : Status) (r : OutputRow) : Bool :=
  r.rank == g.rank && r.appid == g.appid && r.status == st && r.month == none &&
    r.avg_players == none && r.peak_players == none

/-! ## Concrete witness environments -/

/-- Identity key function, standing for a concrete collision-free
`cache_key_for_url`. -/
def keyId : String → String := fun s => s

/-- A fetched page: one March 2021 row, the rolling-window row, and an
out-of-year row. -/
def pageW : Html :=
  [["March 2021", "120", "+5", "4%", "300"],
   ["Last 30 Days", "50", "1", "2", "90"],
   ["February 2020", "10", "1", "2", "20"]]

/-- A page whose monthly table has rows, but none for 2021. -/
def pageNo2021 : Html :=
  [["Last 30 Days", "50", "1", "2", "90"],
   ["February 2020", "10", "1", "2", "20"]]

/-- A page with a 2021 row whose average-players cell is a dash placeholder. -/
def pageDashAvg : Html :=
  [["January 2021", "-", "+5", "4%", "1,000"]]

/-- A network that serves appid 10 and fails for everything else. -/
def netW : String → Except RequestError Html :=
  fun u => if u = build_game_url 10 then .ok pageW else .error ⟨"HTTP 500"⟩

/-- A network that always succeeds with the same page. -/
def netOk : String → Except RequestError Html := fun _ => .ok pageW

/-- A network that always fails. -/
def netFail : String → Except RequestError Html := fun _ => .error ⟨"HTTP 500"⟩

/-- A well-formed one-game roster CSV. -/
def csvW : InputCsv := ⟨["rank", "name", "appid"], [["1", "Game A", "10"]]⟩

/-- A two-game roster CSV (appid 20 is unreachable under `netW`). -/
def csvTwo : InputCsv :=
  ⟨["rank", "name", "appid"], [["1", "Game A", "10"], ["2", "Game B", "20"]]⟩

/-- A malformed roster CSV: the required `appid` column is missing. -/
def csvBad : InputCsv := ⟨["rank", "name"], [["1", "Game A"]]⟩

/-- A network serving a page whose only 2021 row has a dash average cell. -/
def netDash : String → Except RequestError Html :=
  fun u => if u = build_game_url 10 then .ok pageDashAvg else .error ⟨"HTTP 500"⟩

/-- A network serving a page with monthly rows but none for 2021. -/
def netNo2021 : String → Except RequestError Html :=
  fun u => if u = build_game_url 10 then .ok pageNo2021 else .error ⟨"HTTP 500"⟩

/-- A roster source with exactly one year present. -/
def rostersW : Int → Option InputCsv := fun y => if y = 2021 then some csvW else none

/-- The validated roster of `csvTwo`. -/
def gamesTwo : List Game := [⟨1, "Game A", 10⟩, ⟨2, "Game B", 20⟩]

/-- Run of the year collector where the page has monthly rows but none for the
target year. -/
def c5run : Except ValidationError (DataFrame × Cache) :=
  collect_one_year csvW 2021 netNo2021 keyId [] true

/-- DataFrame of the empty-year witness run. -/
def c5df : DataFrame :=
  match c5run with
  | .ok (d, _) => d
  | .error _ => ⟨[], []⟩

/-- Final cache of the empty-year witness run. -/
def c5cache : Cache :=
  match c5run with
  | .ok (_, c) => c
  | .error _ => []

/-- Run of the year collector over the two-game roster: appid 10 succeeds with
one qualifying month, appid 20 hits a request error. -/
def c1run : Except ValidationError (DataFrame × Cache) :=
  collect_one_year csvTwo 2021 netW keyId [] true

/-- DataFrame of the two-game witness run. -/
def c1df : DataFrame :=
  match c1run with
  | .ok (d, _) => d
  | .error _ => ⟨[], []⟩

/-- Final cache of the two-game witness run. -/
def c1cache : Cache :=
  match c1run with
  | .ok (_, c) => c
  | .error _ => []

/-- First run of the orchestrator over the witness environment. -/
def c3run : Except ValidationError (DataFrame × List (Int × DataFrame) × Cache) :=
  collect_year_range 2021 2021 rostersW netW keyId [] true true

/-- Combined DataFrame of the witness first run. -/
def c3df : DataFrame :=
  match c3run with
  | .ok (d, _, _) => d
  | .error _ => ⟨[], []⟩

/-- Per-year outputs of the witness first run. -/
def c3parts : List (Int × DataFrame) :=
  match c3run with
  | .ok (_, p, _) => p
  | .error _ => []

/-- Cache state after the witness first run. -/
def c3cache : Cache :=
  match c3run with
  | .ok (_, _, c) => c
  | .error _ => []

/-! ## Cache and fetcher lemmas -/

theorem cacheLookup_cons (k' : String) (v : Html) (c : Cache) (k : String) :
    cacheLookup ((k', v) :: c) k = if k' = k then some v else cacheLookup c k := rfl

/-- Cache hit with caching enabled: the stored content is returned, the cache
is untouched, the network is not consulted and the delay is not slept. -/
theorem gghtml_hit {a : Int} {net : String → Except RequestError Html}
    {keyFn : String → String} {cache : Cache} {h : Html}
    (hh : cacheLookup cache (keyFn (build_game_url a)) = some h) :
    get_game_page_html a net keyFn cache true = .ok ⟨h, cache, false, false⟩ := by
  unfold get_game_page_html
  simp only [hh]

/-- Cache miss with a successful network fetch: the content is returned and
persisted under the key, and the delay is slept. -/
theorem gghtml_miss_ok {a : Int} {net : String → Except RequestError Html}
    {keyFn : String → String} {cache : Cache} {h : Html}
    (hh : cacheLookup cache (keyFn (build_game_url a)) = none)
    (hn : net (build_game_url a) = .ok h) :
    get_game_page_html a net keyFn cache true =
      .ok ⟨h, (keyFn (build_game_url a), h) :: cache, true, true⟩ := by
  unfold get_game_page_html
  simp only [hh, hn]

/-- Cache miss with a failing network fetch: the error propagates and nothing
is cached. -/
theorem gghtml_miss_err {a : Int} {net : String → Except RequestError Html}
    {keyFn : String → String} {cache : Cache} {e : RequestError}
    (hh : cacheLookup cache (keyFn (build_game_url a)) = none)
    (hn : net (build_game_url a) = .error e) :
    get_game_page_html a net keyFn cache true = .error e := by
  unfold get_game_page_html
  simp only [hh, hn]

/-- With caching disabled, a successful call always goes to the network and
overwrites the cache entry for the key. -/
theorem gghtml_nocache_ok {a : Int} {net : String → Except RequestError Html}
    {keyFn : String → String} {cache : Cache} {h : Html}
    (hn : net (build_game_url a) = .ok h) :
    get_game_page_html a net keyFn cache false =
      .ok ⟨h, (keyFn (build_game_url a), h) :: cache, true, true⟩ := by
  unfold get_game_page_html
  cases hc : cacheLookup cache (keyFn (build_game_url a)) <;> simp only [hc, hn]

/-- With caching disabled, a failing network call raises. -/
theorem gghtml_nocache_err {a : Int} {net : String → Except RequestError Html}
    {keyFn : String → String} {cache : Cache} {e : RequestError}
    (hn : net (build_game_url a) = .error e) :
    get_game_page_html a net keyFn cache false = .error e := by
  unfold get_game_page_html
  cases hc : cacheLookup cache (keyFn (build_game_url a)) <;> simp only [hc, hn]

/-- Inversion of a successful `get_game_page_html` call with caching enabled:
it was either a pure cache hit or a persisted network fetch. -/
theorem gghtml_ok_char {a : Int} {net : String → Except RequestError Html}
    {keyFn : String → String} {cache : Cache} {fr : FetchResult}
    (hr : get_game_page_html a net keyFn cache true = .ok fr) :
    (cacheLookup cache (keyFn (build_game_url a)) = some fr.html ∧ fr.cache = cache ∧
      fr.usedNetwork = false ∧ fr.slept = false) ∨
    (cacheLookup cache (keyFn (build_game_url a)) = none ∧
      net (build_game_url a) = .ok fr.html ∧
      fr.cache = (keyFn (build_game_url a), fr.html) :: cache ∧
      fr.usedNetwork = true ∧ fr.slept = true) := by
  unfold get_game_page_html at hr
  cases hc : cacheLookup cache (keyFn (build_game_url a)) with
  | none =>
    simp only [hc] at hr
    cases hn : net (build_game_url a) with
    | error e => simp [hn] at hr
    | ok h =>
      simp only [hn, Except.ok.injEq] at hr
      subst hr
      exact Or.inr ⟨rfl, rfl, rfl, rfl, rfl⟩
  | some h =>
    simp only [hc, Except.ok.injEq] at hr
    subst hr
    exact Or.inl ⟨rfl, rfl, rfl, rfl⟩

/-- Inversion of a failing `get_game_page_html` call with caching enabled: the
key was not cached and the network call failed. -/
theorem gghtml_err_char {a : Int} {net : String → Except RequestError Html}
    {keyFn : String → String} {cache : Cache} {e : RequestError}
    (hr : get_game_page_html a net keyFn cache true = .error e) :
    cacheLookup cache (keyFn (build_game_url a)) = none ∧
      net (build_game_url a) = .error e := by
  unfold get_game_page_html at hr
  cases hc : cacheLookup cache (keyFn (build_game_url a)) with
  | none =>
    simp only [hc] at hr
    cases hn : net (build_game_url a) with
    | error e' => simp only [hn, Except.error.injEq] at hr; exact ⟨rfl, by rw [hr]⟩
    | ok h => simp [hn] at hr
  | some h => simp [hc] at hr

/-- With caching disabled, a successful call used the network and slept. -/
theorem gghtml_nocache_used {a : Int} {net : String → Except RequestError Html}
    {keyFn : String → String} {cache : Cache} {fr : FetchResult}
    (hr : get_game_page_html a net keyFn cache false = .ok fr) :
    fr.usedNetwork = true ∧ fr.slept = true := by
  unfold get_game_page_html at hr
  cases hc : cacheLookup cache (keyFn (build_game_url a)) <;>
    simp only [hc] at hr <;>
    cases hn : net (build_game_url a) <;> simp only [hn, Except.ok.injEq] at hr <;>
    first
    | exact absurd hr (by simp)
    | (subst hr; exact ⟨rfl, rfl⟩)

/-- A successful enabled-cache call preserves every existing cache binding. -/
theorem gghtml_mono {a : Int} {net : String → Except RequestError Html}
    {keyFn : String → String} {cache : Cache} {fr : FetchResult} {k : String} {v : Html}
    (hr : get_game_page_html a net keyFn cache true = .ok fr)
    (hk : cacheLookup cache k = some v) : cacheLookup fr.cache k = some v := by
  rcases gghtml_ok_char hr with ⟨_, hcc, _, _⟩ | ⟨hnone, _, hcc, _, _⟩
  · rw [hcc]; exact hk
  · rw [hcc, cacheLookup_cons]
    by_cases hkk : keyFn (build_game_url a) = k
    · subst hkk; rw [hnone] at hk; exact absurd hk (by simp)
    · rw [if_neg hkk]; exact hk

/-- Every binding present after a successful enabled-cache call was either
already present or is the key of a successful network fetch. -/
theorem gghtml_prov {a : Int} {net : String → Except RequestError Html}
    {keyFn : String → String} {cache : Cache} {fr : FetchResult} {k : String} {v : Html}
    (hr : get_game_page_html a net keyFn cache true = .ok fr)
    (hk : cacheLookup fr.cache k = some v) :
    cacheLookup cache k = some v ∨ ∃ u, k = keyFn u ∧ net u = .ok v := by
  rcases gghtml_ok_char hr with ⟨_, hcc, _, _⟩ | ⟨_, hnet, hcc, _, _⟩
  · rw [hcc] at hk; exact Or.inl hk
  · rw [hcc, cacheLookup_cons] at hk
    by_cases hkk : keyFn (build_game_url a) = k
    · rw [if_pos hkk] at hk
      refine Or.inr ⟨build_game_url a, hkk.symm, ?_⟩
      rw [hnet]; injection hk with h; rw [h]
    · rw [if_neg hkk] at hk; exact Or.inl hk

/-! ## Repeated-call lemmas for the cache contract -/

/-- With caching disabled, every call in a sequence invokes the network. -/
theorem fetchMany_nocache_all_network (net : String → Except RequestError Html)
    (keyFn : String → String) (as : List Int) (c : Cache) :
    ∀ ev ∈ (fetchMany net keyFn false as c).1, ev.usedNetwork = true := by
  induction as generalizing c with
  | nil => intro ev hev; simp [fetchMany] at hev
  | cons a tl ih =>
    intro ev hev
    cases hr : get_game_page_html a net keyFn c false with
    | error e =>
      simp only [fetchMany, hr, List.mem_cons] at hev
      cases hev with
      | inl h1 => rw [h1]
      | inr h2 => exact ih c ev h2
    | ok fr =>
      simp only [fetchMany, hr, List.mem_cons] at hev
      cases hev with
      | inl h1 => rw [h1]; exact (gghtml_nocache_used hr).1
      | inr h2 => exact ih fr.cache ev h2

/-- Once a key is cached (caching enabled), no later call in the sequence
invokes the network for that key. -/
theorem fetchMany_no_net_of_cached {net : String → Except RequestError Html}
    {keyFn : String → String} (as : List Int) {c : Cache} {k : String} {v : Html}
    (hv : cacheLookup c k = some v) :
    ((fetchMany net keyFn true as c).1.countP
      (fun ev => ev.key == k && ev.usedNetwork)) = 0 := by
  induction as generalizing c v with
  | nil => simp [fetchMany]
  | cons a tl ih =>
    cases hr : get_game_page_html a net keyFn c true with
    | error e =>
      have hkk : keyFn (build_game_url a) ≠ k := by
        intro hkk
        have hnone := (gghtml_err_char hr).1
        rw [hkk, hv] at hnone
        exact absurd hnone (by simp)
      simp only [fetchMany, hr, List.countP_cons]
      have hpred : ((⟨a, keyFn (build_game_url a), true, false⟩ : FetchEvent).key == k &&
          (⟨a, keyFn (build_game_url a), true, false⟩ : FetchEvent).usedNetwork) = false := by
        simp [hkk]
      rw [hpred]
      simpa using ih hv
    | ok fr =>
      simp only [fetchMany, hr, List.countP_cons]
      rcases gghtml_ok_char hr with ⟨hl, hcc, hun, _⟩ | ⟨hl, _, _, hun, _⟩
      · have hpred : ((⟨a, keyFn (build_game_url a), fr.usedNetwork, true⟩ : FetchEvent).key == k &&
            (⟨a, keyFn (build_game_url a), fr.usedNetwork, true⟩ : FetchEvent).usedNetwork) = false := by
          simp [hun]
        rw [hpred]
        have hv' : cacheLookup fr.cache k = some v := by rw [hcc]; exact hv
        simpa using ih hv'
      · have hkk : keyFn (build_game_url a) ≠ k := by
          intro hkk; rw [hkk, hv] at hl; exact absurd hl (by simp)
        have hpred : ((⟨a, keyFn (build_game_url a), fr.usedNetwork, true⟩ : FetchEvent).key == k &&
            (⟨a, keyFn (build_game_url a), fr.usedNetwork, true⟩ : FetchEvent).usedNetwork) = false := by
          simp [hkk]
        rw [hpred]
        have hv' : cacheLookup fr.cache k = some v := gghtml_mono hr hv
        simpa using ih hv'

/-- When every network fetch succeeds and caching is enabled, a sequence of
calls invokes the network at most once per distinct cache key. -/
theorem fetchMany_net_once {net : String → Except RequestError Html}
    {keyFn : String → String} (hnet : ∀ u, ∃ h, net u = .ok h)
    (as : List Int) (c : Cache) (k : String) :
    ((fetchMany net keyFn true as c).1.countP
      (fun ev => ev.key == k && ev.usedNetwork)) ≤ 1 := by
  induction as generalizing c with
  | nil => simp [fetchMany]
  | cons a tl ih =>
    cases hl : cacheLookup c (keyFn (build_game_url a)) with
    | some h =>
      have hr := @gghtml_hit a net keyFn c h hl
      simp only [fetchMany, hr, List.countP_cons]
      have hpred : ((⟨a, keyFn (build_game_url a), false, true⟩ : FetchEvent).key == k &&
          (⟨a, keyFn (build_game_url a), false, true⟩ : FetchEvent).usedNetwork) = false := by
        simp
      rw [hpred]
      simpa using ih c
    | none =>
      obtain ⟨h, hn⟩ := hnet (build_game_url a)
      have hr := gghtml_miss_ok hl hn
      simp only [fetchMany, hr, List.countP_cons]
      by_cases hkk : keyFn (build_game_url a) = k
      · have hv' : cacheLookup ((keyFn (build_game_url a), h) :: c) k = some h := by
          rw [cacheLookup_cons, if_pos hkk]
        have h0 := @fetchMany_no_net_of_cached net keyFn tl _ _ _ hv'
        rw [hkk] at h0
        simp [h0, hkk]
      · have hpred : ((⟨a, keyFn (build_game_url a), true, true⟩ : FetchEvent).key == k &&
            (⟨a, keyFn (build_game_url a), true, true⟩ : FetchEvent).usedNetwork) = false := by
          simp [hkk]
        rw [hpred]
        simpa using ih ((keyFn (build_game_url a), h) :: c)

/-! ## Claim C4 -/

/-- Claim C4 (amended): with caching enabled, a cached key is served from the
cache with no network request, no sleep and no cache change; on a miss a
single network request is issued, raising on failure, and on success the
content is persisted under the key and the delay is slept.  With caching
disabled every call issues a network request.  Across repeated calls with
caching enabled the network loader is invoked at most once per distinct key
provided every network fetch succeeds (a failed fetch persists nothing, so its
key may be retried — see the counterexample for the unamended claim). -/
theorem claim_C4_cache_contract (net : String → Except RequestError Html)
    (keyFn : String → String) :
    (∀ a cache h, cacheLookup cache (keyFn (build_game_url a)) = some h →
      get_game_page_html a net keyFn cache true = .ok ⟨h, cache, false, false⟩) ∧
    (∀ a cache h, cacheLookup cache (keyFn (build_game_url a)) = none →
      net (build_game_url a) = .ok h →
      get_game_page_html a net keyFn cache true =
        .ok ⟨h, (keyFn (build_game_url a), h) :: cache, true, true⟩ ∧
      cacheLookup ((keyFn (build_game_url a), h) :: cache)
        (keyFn (build_game_url a)) = some h) ∧
    (∀ a cache e, cacheLookup cache (keyFn (build_game_url a)) = none →
      net (build_game_url a) = .error e →
      get_game_page_html a net keyFn cache true = .error e) ∧
    (∀ as c, ∀ ev ∈ (fetchMany net keyFn false as c).1, ev.usedNetwork = true) ∧
    ((∀ u, ∃ h, net u = .ok h) →
      ∀ as c k, ((fetchMany net keyFn true as c).1.countP
        (fun ev => ev.key == k && ev.usedNetwork)) ≤ 1) :=
  ⟨fun _ _ _ hh => gghtml_hit hh,
   fun _ _ _ hh hn => ⟨gghtml_miss_ok hh hn, by rw [cacheLookup_cons, if_pos rfl]⟩,
   fun _ _ _ hh hn => gghtml_miss_err hh hn,
   fun as c => fetchMany_nocache_all_network net keyFn as c,
   fun hnet as c k => fetchMany_net_once hnet as c k⟩

/-- Claim C4, counterexample to the unamended at-most-once clause: with
caching enabled but a failing upstream, two calls for the same appid (hence
the same key) both invoke the network loader — nothing was persisted after
the first failure, so the key is fetched again. -/
theorem claim_C4_counterexample :
    ((fetchMany netFail keyId true [10, 10] []).1.countP
      (fun ev => ev.key == keyId (build_game_url 10) && ev.usedNetwork)) = 2 := by
  decide

/-- Claim C4, witness: a concrete cache hit, and the at-most-once bound on a
concrete repeated call with an always-successful network. -/
theorem claim_C4_witness :
    get_game_page_html 10 netOk keyId [(keyId (build_game_url 10), pageW)] true =
      .ok ⟨pageW, [(keyId (build_game_url 10), pageW)], false, false⟩ ∧
    ((fetchMany netOk keyId true [10, 10] []).1.countP
      (fun ev => ev.key == keyId (build_game_url 10) && ev.usedNetwork)) ≤ 1 :=
  ⟨(claim_C4_cache_contract netOk keyId).1 10 _ pageW (by decide),
   (claim_C4_cache_contract netOk keyId).2.2.2.2 (fun _ => ⟨pageW, rfl⟩) [10, 10] [] _⟩

/-! ## Per-game loop lemmas -/

theorem collectRows_append (parserFn : Html → Int → Except ParseError (List MonthRecord))
    (year : Int) (net : String → Except RequestError Html) (keyFn : String → String)
    (uc : Bool) (gs₁ gs₂ : List Game) (c : Cache) :
    collectRows parserFn year net keyFn uc (gs₁ ++ gs₂) c =
      ((collectRows parserFn year net keyFn uc gs₁ c).1 ++
        (collectRows parserFn year net keyFn uc gs₂
          (collectRows parserFn year net keyFn uc gs₁ c).2).1,
       (collectRows parserFn year net keyFn uc gs₂
          (collectRows parserFn year net keyFn uc gs₁ c).2).2) := by
  induction gs₁ generalizing c with
  | nil => simp [collectRows]
  | cons g tl ih =>
    cases hr : get_game_page_html g.appid net keyFn c uc with
    | error e => simp [collectRows, hr, ih]
    | ok fr =>
      cases hp : parserFn fr.html year with
      | error pe => simp [collectRows, hr, hp, ih]
      | ok l =>
        cases l with
        | nil => simp [collectRows, hr, hp, ih]
        | cons pr prs => simp [collectRows, hr, hp, ih]

theorem collectRows_mono (parserFn : Html → Int → Except ParseError (List MonthRecord))
    (year : Int) (net : String → Except RequestError Html) (keyFn : String → String)
    (gs : List Game) {c : Cache} {k : String} {v : Html}
    (hk : cacheLookup c k = some v) :
    cacheLookup (collectRows parserFn year net keyFn true gs c).2 k = some v := by
  induction gs generalizing c with
  | nil => simpa [collectRows] using hk
  | cons g tl ih =>
    cases hr : get_game_page_html g.appid net keyFn c true with
    | error e => simp only [collectRows, hr]; exact ih hk
    | ok fr =>
      have hk' := gghtml_mono hr hk
      cases hp : parserFn fr.html year with
      | error pe => simp only [collectRows, hr, hp]; exact ih hk'
      | ok l =>
        cases l with
        | nil => simp only [collectRows, hr, hp]; exact ih hk'
        | cons pr prs => simp only [collectRows, hr, hp]; exact ih hk'

theorem collectRows_prov (parserFn : Html → Int → Except ParseError (List MonthRecord))
    (year : Int) (net : String → Except RequestError Html) (keyFn : String → String)
    (gs : List Game) {c : Cache} {k : String} {v : Html}
    (hk : cacheLookup (collectRows parserFn year net keyFn true gs c).2 k = some v) :
    cacheLookup c k = some v ∨ ∃ u, k = keyFn u ∧ net u = .ok v := by
  induction gs generalizing c with
  | nil => exact Or.inl (by simpa [collectRows] using hk)
  | cons g tl ih =>
    cases hr : get_game_page_html g.appid net keyFn c true with
    | error e =>
      simp only [collectRows, hr] at hk
      exact ih hk
    | ok fr =>
      have step : cacheLookup fr.cache k = some v →
          cacheLookup c k = some v ∨ ∃ u, k = keyFn u ∧ net u = .ok v :=
        fun h => gghtml_prov hr h
      cases hp : parserFn fr.html year with
      | error pe =>
        simp only [collectRows, hr, hp] at hk
        rcases ih hk with h | h
        · exact step h
        · exact Or.inr h
      | ok l =>
        cases l with
        | nil =>
          simp only [collectRows, hr, hp] at hk
          rcases ih hk with h | h
          · exact step h
          · exact Or.inr h
        | cons pr prs =>
          simp only [collectRows, hr, hp] at hk
          rcases ih hk with h | h
          · exact step h
          · exact Or.inr h

/-- Every emitted row carries the metadata of some roster entry of the list
and the target year. -/
theorem collectRows_row_src (parserFn : Html → Int → Except ParseError (List MonthRecord))
    (year : Int) (net : String → Except RequestError Html) (keyFn : String → String)
    (uc : Bool) (gs : List Game) (c : Cache) :
    ∀ r ∈ (collectRows parserFn year net keyFn uc gs c).1,
      ∃ g ∈ gs, r.rank = g.rank ∧ r.name = g.name ∧ r.appid = g.appid ∧ r.year = year := by
  induction gs generalizing c with
  | nil => intro r hrr; simp [collectRows] at hrr
  | cons g tl ih =>
    intro r hrr
    cases hr : get_game_page_html g.appid net keyFn c uc with
    | error e =>
      simp only [collectRows, hr, List.mem_cons] at hrr
      rcases hrr with h1 | h2
      · exact ⟨g, List.mem_cons_self g tl, by rw [h1]; exact ⟨rfl, rfl, rfl, rfl⟩⟩
      · obtain ⟨g', hg', hinfo⟩ := ih c r h2
        exact ⟨g', List.mem_cons_of_mem g hg', hinfo⟩
    | ok fr =>
      cases hp : parserFn fr.html year with
      | error pe =>
        simp only [collectRows, hr, hp, List.mem_cons] at hrr
        rcases hrr with h1 | h2
        · exact ⟨g, List.mem_cons_self g tl, by rw [h1]; exact ⟨rfl, rfl, rfl, rfl⟩⟩
        · obtain ⟨g', hg', hinfo⟩ := ih fr.cache r h2
          exact ⟨g', List.mem_cons_of_mem g hg', hinfo⟩
      | ok l =>
        cases l with
        | nil =>
          simp only [collectRows, hr, hp, List.mem_cons] at hrr
          rcases hrr with h1 | h2
          · exact ⟨g, List.mem_cons_self g tl, by rw [h1]; exact ⟨rfl, rfl, rfl, rfl⟩⟩
          · obtain ⟨g', hg', hinfo⟩ := ih fr.cache r h2
            exact ⟨g', List.mem_cons_of_mem g hg', hinfo⟩
        | cons pr prs =>
          simp only [collectRows, hr, hp, List.mem_append, List.mem_map] at hrr
          rcases hrr with ⟨pr', _, h1⟩ | h2
          · exact ⟨g, List.mem_cons_self g tl, by rw [← h1]; exact ⟨rfl, rfl, rfl, rfl⟩⟩
          · obtain ⟨g', hg', hinfo⟩ := ih fr.cache r h2
            exact ⟨g', List.mem_cons_of_mem g hg', hinfo⟩

/-- Every roster entry of the list contributes at least one row. -/
theorem collectRows_exists_row (parserFn : Html → Int → Except ParseError (List MonthRecord))
    (year : Int) (net : String → Except RequestError Html) (keyFn : String → String)
    (uc : Bool) {g : Game} (gs : List Game) (c : Cache) (hg : g ∈ gs) :
    ∃ r ∈ (collectRows parserFn year net keyFn uc gs c).1,
      r.rank = g.rank ∧ r.name = g.name ∧ r.appid = g.appid := by
  induction gs generalizing c with
  | nil => cases hg
  | cons g' tl ih =>
    rcases List.mem_cons.mp hg with rfl | hmem
    · cases hr : get_game_page_html g.appid net keyFn c uc with
      | error e =>
        refine ⟨sentinelRow year g .request_error, ?_, rfl, rfl, rfl⟩
        simp [collectRows, hr]
      | ok fr =>
        cases hp : parserFn fr.html year with
        | error pe =>
          refine ⟨sentinelRow year g .parse_error, ?_, rfl, rfl, rfl⟩
          simp [collectRows, hr, hp]
        | ok l =>
          cases l with
          | nil =>
            refine ⟨sentinelRow year g .no_data_for_year, ?_, rfl, rfl, rfl⟩
            simp [collectRows, hr, hp]
          | cons pr prs =>
            refine ⟨okRow year g pr, ?_, rfl, rfl, rfl⟩
            simp only [collectRows, hr, hp, List.mem_append, List.mem_map]
            exact Or.inl ⟨pr, List.mem_cons_self pr prs, rfl⟩
    · cases hr : get_game_page_html g'.appid net keyFn c uc with
      | error e =>
        obtain ⟨r, hrmem, hinfo⟩ := ih c hmem
        exact ⟨r, by simp only [collectRows, hr, List.mem_cons]; exact Or.inr hrmem, hinfo⟩
      | ok fr =>
        cases hp : parserFn fr.html year with
        | error pe =>
          obtain ⟨r, hrmem, hinfo⟩ := ih fr.cache hmem
          exact ⟨r, by simp only [collectRows, hr, hp, List.mem_cons]; exact Or.inr hrmem, hinfo⟩
        | ok l =>
          cases l with
          | nil =>
            obtain ⟨r, hrmem, hinfo⟩ := ih fr.cache hmem
            exact ⟨r, by simp only [collectRows, hr, hp, List.mem_cons]; exact Or.inr hrmem, hinfo⟩
          | cons pr prs =>
            obtain ⟨r, hrmem, hinfo⟩ := ih fr.cache hmem
            exact ⟨r, by simp only [collectRows, hr, hp, List.mem_append]; exact Or.inr hrmem,
              hinfo⟩

/-- The number of `ok` rows emitted by the loop equals the sum of the
qualifying-month counts of the entries. -/
theorem collectRows_ok_count (year : Int) (net : String → Except RequestError Html)
    (keyFn : String → String) (uc : Bool) (gs : List Game) (c : Cache) :
    ((collectRows parseResult year net keyFn uc gs c).1.countP
      (fun r => r.status == Status.ok)) = (qual_counts year net keyFn uc gs c).sum := by
  induction gs generalizing c with
  | nil => simp [collectRows, qual_counts]
  | cons g tl ih =>
    cases hr : get_game_page_html g.appid net keyFn c uc with
    | error e =>
      simp [collectRows, qual_counts, hr, List.countP_cons, sentinelRow, ih]
    | ok fr =>
      cases hl : parse_year_data_from_html fr.html year with
      | nil =>
        simp [collectRows, qual_counts, hr, parseResult, hl, List.countP_cons, sentinelRow, ih]
      | cons pr prs =>
        simp [collectRows, qual_counts, hr, parseResult, hl, List.countP_cons,
          List.countP_append, List.countP_map, okRow, ih, Function.comp]
        have hall : List.countP ((fun r => r.status == Status.ok) ∘ okRow year g) prs =
            prs.length :=
          List.countP_eq_length.mpr (fun pr' _ => by simp [okRow])
        rw [hall]
        omega

/-- The loop never emits a `parse_error` row when run with the real parser,
whose wrapped call always returns. -/
theorem collectRows_no_parse_error (year : Int) (net : String → Except RequestError Html)
    (keyFn : String → String) (uc : Bool) (gs : List Game) (c : Cache) :
    ∀ r ∈ (collectRows parseResult year net keyFn uc gs c).1,
      r.status ≠ Status.parse_error := by
  induction gs generalizing c with
  | nil => intro r hrr; simp [collectRows] at hrr
  | cons g tl ih =>
    intro r hrr
    cases hr : get_game_page_html g.appid net keyFn c uc with
    | error e =>
      simp only [collectRows, hr, List.mem_cons] at hrr
      rcases hrr with h1 | h2
      · rw [h1]; intro hst; cases hst
      · exact ih c r h2
    | ok fr =>
      cases hl : parse_year_data_from_html fr.html year with
      | nil =>
        simp only [collectRows, hr, parseResult, hl, List.mem_cons] at hrr
        rcases hrr with h1 | h2
        · rw [h1]; intro hst; cases hst
        · exact ih fr.cache r h2
      | cons pr prs =>
        simp only [collectRows, hr, parseResult, hl, List.mem_append, List.mem_map] at hrr
        rcases hrr with ⟨pr', _, h1⟩ | h2
        · rw [← h1]; intro hst; cases hst
        · exact ih fr.cache r h2

/-! ## Roster-loading lemmas -/

theorem dedupFirst_pairs (l : List Game) (seen : List (Int × Int)) :
    ((dedupFirst l seen).map (fun g => (g.rank, g.appid))).Nodup ∧
      ∀ p ∈ (dedupFirst l seen).map (fun g => (g.rank, g.appid)), p ∉ seen := by
  induction l generalizing seen with
  | nil => simp [dedupFirst]
  | cons g tl ih =>
    by_cases hmem : (g.rank, g.appid) ∈ seen
    · simp only [dedupFirst, if_pos hmem]
      exact ih seen
    · simp only [dedupFirst, if_neg hmem, List.map_cons]
      obtain ⟨hnd, hout⟩ := ih ((g.rank, g.appid) :: seen)
      refine ⟨List.nodup_cons.mpr ⟨?_, hnd⟩, ?_⟩
      · intro hin
        exact absurd (List.mem_cons_self _ _) (fun hc => hout _ hin hc)
      · intro p hp
        rcases List.mem_cons.mp hp with rfl | hp'
        · exact hmem
        · exact fun hseen => hout p hp' (List.mem_cons_of_mem _ hseen)

/-- A validated roster has no duplicate `(rank, appid)` pair. -/
theorem load_input_csv_nodup {csv : InputCsv} {games : List Game}
    (h : load_input_csv csv = .ok games) :
    (games.map (fun g => (g.rank, g.appid))).Nodup := by
  unfold load_input_csv at h
  split at h
  · split at h
    next heq => exact Except.noConfusion h
    next gs heq =>
      injection h with h
      rw [← h]
      have hperm := (List.perm_insertionSort gameLe
        (dedupFirst (gs.filter (fun g => g.name ≠ "")) [])).map
        (fun g => (g.rank, g.appid))
      exact hperm.nodup_iff.mpr (dedupFirst_pairs _ []).1
  · exact Except.noConfusion h

/-! ## Year-collector unfolding lemmas -/

theorem collect_one_year_ok {csv : InputCsv} {games : List Game} (year : Int)
    (net : String → Except RequestError Html) (keyFn : String → String)
    (cache : Cache) (uc : Bool) (h : load_input_csv csv = .ok games) :
    collect_one_year csv year net keyFn cache uc =
      .ok (⟨output_columns,
            sortOutputRows (collectRows parseResult year net keyFn uc games cache).1⟩,
           (collectRows parseResult year net keyFn uc games cache).2) := by
  unfold collect_one_year
  rw [h]

theorem collect_one_year_err {csv : InputCsv} {e : ValidationError} (year : Int)
    (net : String → Except RequestError Html) (keyFn : String → String)
    (cache : Cache) (uc : Bool) (h : load_input_csv csv = .error e) :
    collect_one_year csv year net keyFn cache uc = .error e := by
  unfold collect_one_year
  rw [h]

theorem sortOutputRows_perm (rows : List OutputRow) :
    List.Perm (sortOutputRows rows) rows :=
  List.perm_insertionSort _ _

/-! ## Claim C1 -/

/-- Claim C1: every entry of the validated roster contributes at least one
output row carrying its rank/name/appid (no roster entry is silently dropped),
and the number of `status=ok` rows equals the sum over the entries of the
number of qualifying monthly records parsed for the target year. -/
theorem claim_C1_every_entry_represented {csv : InputCsv} {games : List Game}
    {year : Int} {net : String → Except RequestError Html} {keyFn : String → String}
    {cache : Cache} {uc : Bool} {df : DataFrame} {c₂ : Cache}
    (hload : load_input_csv csv = .ok games)
    (hrun : collect_one_year csv year net keyFn cache uc = .ok (df, c₂)) :
    (∀ g ∈ games, ∃ r ∈ df.rows, r.rank = g.rank ∧ r.name = g.name ∧ r.appid = g.appid) ∧
    df.rows.countP (fun r => r.status == Status.ok) =
      (qual_counts year net keyFn uc games cache).sum := by
  rw [collect_one_year_ok year net keyFn cache uc hload] at hrun
  simp only [Except.ok.injEq, Prod.mk.injEq] at hrun
  obtain ⟨hdf, -⟩ := hrun
  rw [← hdf]
  constructor
  · intro g hg
    obtain ⟨r, hrmem, hinfo⟩ :=
      collectRows_exists_row parseResult year net keyFn uc games cache hg
    exact ⟨r, (sortOutputRows_perm _).mem_iff.mpr hrmem, hinfo⟩
  · rw [(sortOutputRows_perm _).countP_eq]
    exact collectRows_ok_count year net keyFn uc games cache

/-- Claim C1, witness: the two-game roster under `netW` (one reachable game
with one qualifying month, one unreachable game). -/
theorem claim_C1_witness :
    (∀ g ∈ gamesTwo, ∃ r ∈ c1df.rows,
      r.rank = g.rank ∧ r.name = g.name ∧ r.appid = g.appid) ∧
    c1df.rows.countP (fun r => r.status == Status.ok) =
      (qual_counts 2021 netW keyId true gamesTwo []).sum :=
  @claim_C1_every_entry_represented csvTwo _ _ _ _ _ _ _ c1cache
    (by with_unfolding_all rfl) (by with_unfolding_all rfl)

/-! ## Claim C9 -/

/-- Claim C9: the parser is total — a page whose monthly table is entirely
absent parses to the empty record list, the wrapped parse call always returns
`ok` for every page content — and therefore `collect_one_year`'s
`parse_error` branch is unreachable: no returned row ever carries
`status=parse_error`. -/
theorem claim_C9_parse_error_unreachable :
    (∀ y : Int, parse_year_data_from_html [] y = []) ∧
    (∀ (html : Html) (y : Int), parseResult html y = .ok (parse_year_data_from_html html y)) ∧
    (∀ (csv : InputCsv) (year : Int) (net : String → Except RequestError Html)
      (keyFn : String → String) (cache : Cache) (uc : Bool) (df : DataFrame) (c₂ : Cache),
      collect_one_year csv year net keyFn cache uc = .ok (df, c₂) →
      ∀ r ∈ df.rows, r.status ≠ Status.parse_error) := by
  refine ⟨fun y => rfl, fun html y => rfl, ?_⟩
  intro csv year net keyFn cache uc df c₂ hrun r hr
  cases hload : load_input_csv csv with
  | error e => rw [collect_one_year_err year net keyFn cache uc hload] at hrun; cases hrun
  | ok games =>
    rw [collect_one_year_ok year net keyFn cache uc hload] at hrun
    simp only [Except.ok.injEq, Prod.mk.injEq] at hrun
    obtain ⟨hdf, -⟩ := hrun
    rw [← hdf] at hr
    exact collectRows_no_parse_error year net keyFn uc games cache r
      ((sortOutputRows_perm _).mem_iff.mp hr)

/-- Claim C9, witness: the two-game run contains no `parse_error` status. -/
theorem claim_C9_witness :
    Status.parse_error ∉ c1df.rows.map (fun r => r.status) := by
  intro hmem
  obtain ⟨r, hr, hst⟩ := List.mem_map.mp hmem
  exact claim_C9_parse_error_unreachable.2.2 csvTwo 2021 netW keyId [] true c1df c1cache
    (by with_unfolding_all rfl) r hr hst

/-! ## Claim C10 -/

/-- Claim C10: a `status=ok` row can carry `avg_players=None` — a qualifying
month row whose average cell is a dash placeholder parses with
`avg_players=none`, and the year collector stores that `none` unchanged in the
`ok` output row, so `status=ok` does not imply both numeric fields are
present. -/
theorem claim_C10_ok_row_with_missing_avg :
    parse_year_data_from_html pageDashAvg 2021 =
      [⟨"2021-01", none, some 1000⟩] ∧
    ∃ df c₂, collect_one_year csvW 2021 netDash keyId [] true = .ok (df, c₂) ∧
      ∃ r ∈ df.rows, r.status = Status.ok ∧ r.avg_players = none ∧
        r.peak_players = some 1000 := by
  constructor
  · with_unfolding_all rfl
  · have h : collect_one_year csvW 2021 netDash keyId [] true =
        .ok (⟨output_columns,
              [⟨2021, 1, "Game A", 10, some "2021-01", none, some 1000, .ok⟩]⟩,
             [(keyId (build_game_url 10), pageDashAvg)]) := by
      with_unfolding_all rfl
    refine ⟨_, _, h,
      ⟨⟨2021, 1, "Game A", 10, some "2021-01", none, some 1000, .ok⟩, ?_, rfl, rfl, rfl⟩⟩
    simp

/-! ## Claim C7 -/

theorem pyFloat_empty : pyFloat "" = none := by with_unfolding_all rfl

theorem pyFloat_dash : pyFloat "-" = none := by with_unfolding_all rfl

theorem pyFloat_emdash : pyFloat "—" = none := by with_unfolding_all rfl

/-- Claim C7: `clean_num` never raises (it is a total function) and: `None`
maps to `None`; the empty string, a bare hyphen and an em-dash (after
stripping whitespace) map to `None`; when the text parses as a number after
whitespace stripping and thousands-separator removal the result is exactly
that parsed value; and any remaining unparseable text maps to `None`. -/
theorem claim_C7_clean_num (s : String) :
    clean_num none = none ∧
    ((s.trim = "" ∨ s.trim = "-" ∨ s.trim = "—") → clean_num (some s) = none) ∧
    (∀ q : ℚ, pyFloat ((s.trim).replace "," "") = some q → clean_num (some s) = some q) ∧
    (pyFloat ((s.trim).replace "," "") = none → clean_num (some s) = none) := by
  refine ⟨rfl, ?_, ?_, ?_⟩
  · intro hs
    simp only [clean_num]
    rcases hs with h | h | h <;> rw [h] <;> with_unfolding_all rfl
  · intro q hq
    simp only [clean_num]
    by_cases hc : ((s.trim).replace "," "" = "" ∨ (s.trim).replace "," "" = "-" ∨
        (s.trim).replace "," "" = "—")
    · exfalso
      rcases hc with h | h | h
      · rw [h, pyFloat_empty] at hq; cases hq
      · rw [h, pyFloat_dash] at hq; cases hq
      · rw [h, pyFloat_emdash] at hq; cases hq
    · rw [if_neg hc]; exact hq
  · intro hq
    simp only [clean_num]
    by_cases hc : ((s.trim).replace "," "" = "" ∨ (s.trim).replace "," "" = "-" ∨
        (s.trim).replace "," "" = "—")
    · rw [if_pos hc]
    · rw [if_neg hc]; exact hq

/-- Claim C7, witness: a thousands-separated decimal with whitespace parses to
its separator-free value; a whitespace-padded em-dash is "no value"; an
unparseable text is "no value". -/
theorem claim_C7_witness :
    clean_num (some " 12,345.6 ") = some (123456 / 10) ∧
    clean_num (some " — ") = none ∧
    clean_num (some "n/a") = none :=
  ⟨(claim_C7_clean_num " 12,345.6 ").2.2.1 (123456 / 10) (by with_unfolding_all rfl),
   (claim_C7_clean_num " — ").2.1 (Or.inr (Or.inr (by with_unfolding_all rfl))),
   (claim_C7_clean_num "n/a").2.2.2 (by with_unfolding_all rfl)⟩

/-! ## Parser row-rule lemmas -/

theorem monthIdx_lt_length {l : List String} {m : String} {i : Nat}
    (h : monthIdx l m = some i) : i < l.length := by
  induction l generalizing i with
  | nil => cases h
  | cons n tl ih =>
    simp only [monthIdx] at h
    split at h
    · injection h with h
      simp only [List.length_cons]
      omega
    · cases hx : monthIdx tl m with
      | none => rw [hx] at h; cases h
      | some j =>
        rw [hx] at h
        injection h with h
        have h' : j + 1 = i := h
        have := ih hx
        simp only [List.length_cons]
        omega

theorem monthNumber_bounds {t : String} {m : Nat} (h : monthNumber t = some m) :
    1 ≤ m ∧ m ≤ 12 := by
  unfold monthNumber at h
  cases hx : monthIdx monthNames t with
  | none => rw [hx] at h; cases h
  | some i =>
    rw [hx] at h
    injection h with h
    have h' : i + 1 = m := h
    have hlt := monthIdx_lt_length hx
    have hlen : monthNames.length = 12 := rfl
    omega

theorem parseMonthYear_bounds {s : String} {y : Int} {m : Nat}
    (h : parseMonthYear s = some (y, m)) : 1 ≤ m ∧ m ≤ 12 := by
  simp only [parseMonthYear] at h
  split at h
  · cases h
  · split at h
    · cases h
    · split at h
      next => cases h
      next m' hmn =>
        split at h
        · simp only [Option.some.injEq, Prod.mk.injEq] at h
          obtain ⟨-, h2⟩ := h
          subst h2
          exact monthNumber_bounds hmn
        · cases h

theorem parseRowCells_skip_short {cells : List String} {y : Int}
    (h : cells.length < 5) : parseRowCells cells y = none := by
  simp only [parseRowCells]
  rw [if_pos h]

theorem parseRowCells_skip_last30 {cells : List String} {y : Int}
    (h : (cells.getD 0 "").toLower = "last 30 days") : parseRowCells cells y = none := by
  by_cases hlen : cells.length < 5
  · exact parseRowCells_skip_short hlen
  · simp only [parseRowCells]
    rw [if_neg hlen, if_pos h]

theorem parseRowCells_skip_noparse {cells : List String} {y : Int}
    (h : parseMonthYear (cells.getD 0 "") = none) : parseRowCells cells y = none := by
  simp only [parseRowCells]
  split
  · rfl
  · split
    · rfl
    · rw [h]

theorem parseRowCells_skip_wrongyear {cells : List String} {y ym : Int} {m : Nat}
    (hmy : parseMonthYear (cells.getD 0 "") = some (ym, m)) (hne : ym ≠ y) :
    parseRowCells cells y = none := by
  simp only [parseRowCells]
  split
  · rfl
  · split
    · rfl
    · simp only [hmy]
      rw [if_neg hne]

/-- Inversion of a kept row: it qualifies for the target year, its month is in
range, and its numeric fields come from `clean_num` on cells 1 and 4. -/
theorem parseRowCells_eq_some {cells : List String} {y : Int} {r : MonthRecord}
    (h : parseRowCells cells y = some r) :
    ∃ m, 1 ≤ m ∧ m ≤ 12 ∧ parseMonthYear (cells.getD 0 "") = some (y, m) ∧
      r = ⟨formatYM y m, clean_num (some (cells.getD 1 "")),
        clean_num (some (cells.getD 4 ""))⟩ := by
  simp only [parseRowCells] at h
  split at h
  · cases h
  · split at h
    · cases h
    · split at h
      next => cases h
      next ym m hmy =>
        split at h
        next hy =>
          subst hy
          injection h with h
          exact ⟨m, (parseMonthYear_bounds hmy).1, (parseMonthYear_bounds hmy).2, hmy, h.symm⟩
        · cases h

theorem parse_skip_row {cells : List String} (rest : Html) {y : Int}
    (h : parseRowCells cells y = none) :
    parse_year_data_from_html (cells :: rest) y = parse_year_data_from_html rest y := by
  unfold parse_year_data_from_html
  rw [@List.filterMap_cons_none _ _ (fun c => parseRowCells c y) cells rest h]

/-! ## Claim C6 -/

/-- Claim C6: the parser skips rows with fewer than 5 cells, the
case-insensitive "Last 30 Days" rolling row, rows whose month cell does not
parse as a full month name plus 4-digit year, and rows of a different year —
each without error; every kept record belongs to the target year (its month
key is `"YYYY-MM"` for the target year, its numerics are the cleaned cells 1
and 4); and the output is sorted ascending by the month string. -/
theorem claim_C6_parser_row_rules :
    (∀ (cells : List String) (rest : Html) (y : Int), cells.length < 5 →
      parse_year_data_from_html (cells :: rest) y = parse_year_data_from_html rest y) ∧
    (∀ (cells : List String) (rest : Html) (y : Int),
      (cells.getD 0 "").toLower = "last 30 days" →
      parse_year_data_from_html (cells :: rest) y = parse_year_data_from_html rest y) ∧
    (∀ (cells : List String) (rest : Html) (y : Int),
      parseMonthYear (cells.getD 0 "") = none →
      parse_year_data_from_html (cells :: rest) y = parse_year_data_from_html rest y) ∧
    (∀ (cells : List String) (rest : Html) (y ym : Int) (m : Nat),
      parseMonthYear (cells.getD 0 "") = some (ym, m) → ym ≠ y →
      parse_year_data_from_html (cells :: rest) y = parse_year_data_from_html rest y) ∧
    (∀ (html : Html) (y : Int) (r : MonthRecord), r ∈ parse_year_data_from_html html y →
      ∃ m, 1 ≤ m ∧ m ≤ 12 ∧ r.month = formatYM y m ∧
        ∃ cells ∈ html, parseMonthYear (cells.getD 0 "") = some (y, m) ∧
          r.avg_players = clean_num (some (cells.getD 1 "")) ∧
          r.peak_players = clean_num (some (cells.getD 4 ""))) ∧
    (∀ (html : Html) (y : Int),
      List.Sorted (· ≤ ·) ((parse_year_data_from_html html y).map (fun r => r.month))) := by
  refine ⟨fun cells rest y h => parse_skip_row rest (parseRowCells_skip_short h),
    fun cells rest y h => parse_skip_row rest (parseRowCells_skip_last30 h),
    fun cells rest y h => parse_skip_row rest (parseRowCells_skip_noparse h),
    fun cells rest y ym m hmy hne =>
      parse_skip_row rest (parseRowCells_skip_wrongyear hmy hne),
    ?_, ?_⟩
  · intro html y r hr
    have hr' : r ∈ html.filterMap (fun cells => parseRowCells cells y) :=
      (List.perm_insertionSort recLe _).mem_iff.mp hr
    obtain ⟨cells, hcells, hsome⟩ := List.mem_filterMap.mp hr'
    obtain ⟨m, h1, h2, hmy, hrec⟩ := parseRowCells_eq_some hsome
    exact ⟨m, h1, h2, by rw [hrec], cells, hcells, hmy, by rw [hrec], by rw [hrec]⟩
  · intro html y
    have hs : List.Sorted recLe (parse_year_data_from_html html y) :=
      List.sorted_insertionSort recLe _
    exact List.pairwise_map.mpr hs

/-- Claim C6, witness: each skip rule on a concrete row, and sortedness of a
concrete parse. -/
theorem claim_C6_witness :
    parse_year_data_from_html [["short"]] 2021 = parse_year_data_from_html [] 2021 ∧
    parse_year_data_from_html [["Last 30 Days", "50", "1", "2", "90"]] 2021 =
      parse_year_data_from_html [] 2021 ∧
    parse_year_data_from_html [["Gain %", "50", "1", "2", "90"]] 2021 =
      parse_year_data_from_html [] 2021 ∧
    parse_year_data_from_html [["February 2020", "10", "1", "2", "20"]] 2021 =
      parse_year_data_from_html [] 2021 ∧
    List.Sorted (· ≤ ·) ((parse_year_data_from_html pageW 2021).map (fun r => r.month)) :=
  ⟨claim_C6_parser_row_rules.1 ["short"] [] 2021 (by decide),
   claim_C6_parser_row_rules.2.1 ["Last 30 Days", "50", "1", "2", "90"] [] 2021
     (by with_unfolding_all rfl),
   claim_C6_parser_row_rules.2.2.1 ["Gain %", "50", "1", "2", "90"] [] 2021
     (by with_unfolding_all rfl),
   claim_C6_parser_row_rules.2.2.2.1 ["February 2020", "10", "1", "2", "20"] [] 2021 2020 2
     (by with_unfolding_all rfl) (by decide),
   claim_C6_parser_row_rules.2.2.2.2.2 pageW 2021⟩

/-! ## Per-entry counting lemmas -/

theorem isSentinelFor_isForGame {g : Game} {st : Status} {r : OutputRow}
    (h : isSentinelFor g st r = true) : isForGame g r = true := by
  simp only [isSentinelFor, Bool.and_eq_true] at h
  simp only [isForGame, Bool.and_eq_true]
  exact ⟨h.1.1.1.1.1, h.1.1.1.1.2⟩

/-- Rows of entries whose `(rank, appid)` pair differs from `g`'s never match
a `g`-predicate. -/
theorem collectRows_countP_zero (parserFn : Html → Int → Except ParseError (List MonthRecord))
    (year : Int) (net : String → Except RequestError Html) (keyFn : String → String)
    (uc : Bool) (gs' : List Game) (c : Cache) (g : Game) (p : OutputRow → Bool)
    (hp : ∀ r, p r = true → isForGame g r = true)
    (hne : ∀ g' ∈ gs', ¬(g'.rank = g.rank ∧ g'.appid = g.appid)) :
    (collectRows parserFn year net keyFn uc gs' c).1.countP p = 0 := by
  rw [List.countP_eq_zero]
  intro r hr hpr
  obtain ⟨g', hg', hrank, hname, happid, hyear⟩ :=
    collectRows_row_src parserFn year net keyFn uc gs' c r hr
  have hfg := hp r hpr
  simp only [isForGame, Bool.and_eq_true, beq_iff_eq] at hfg
  exact hne g' hg' ⟨hrank.symm.trans hfg.1, happid.symm.trans hfg.2⟩

/-- The `(rank, appid)` pair of `g` is distinct from that of every other entry
of a duplicate-free roster split as `gs₁ ++ g :: gs₂`. -/
theorem nodup_pairs_split {gs₁ : List Game} {g : Game} {gs₂ : List Game}
    (hnodup : ((gs₁ ++ g :: gs₂).map (fun g' => (g'.rank, g'.appid))).Nodup) :
    (∀ g' ∈ gs₁, ¬(g'.rank = g.rank ∧ g'.appid = g.appid)) ∧
    (∀ g' ∈ gs₂, ¬(g'.rank = g.rank ∧ g'.appid = g.appid)) := by
  rw [List.map_append, List.map_cons, List.nodup_append] at hnodup
  obtain ⟨-, h₂, hdisj⟩ := hnodup
  constructor
  · rintro g' hg' ⟨hr, ha⟩
    have hmem : (g'.rank, g'.appid) ∈ gs₁.map (fun g' => (g'.rank, g'.appid)) :=
      List.mem_map_of_mem _ hg'
    apply hdisj hmem
    rw [hr, ha]
    exact List.mem_cons_self _ _
  · rintro g' hg' ⟨hr, ha⟩
    apply (List.nodup_cons.mp h₂).1
    have hmem : (g'.rank, g'.appid) ∈ gs₂.map (fun g' => (g'.rank, g'.appid)) :=
      List.mem_map_of_mem _ hg'
    rw [hr, ha] at hmem
    exact hmem

/-! ## Claim C5 -/

/-- Claim C5: a well-formed page with no monthly rows for the target year
parses, without raising, to the empty record sequence; and the year collector
turns that empty sequence into exactly one `no_data_for_year` sentinel row
(month/avg/peak all `None`) for that roster entry — it is the entry's only
output row. -/
theorem claim_C5_empty_year_sentinel {csv : InputCsv} {games : List Game} {year : Int}
    {net : String → Except RequestError Html} {keyFn : String → String} {cache : Cache}
    {uc : Bool} {df : DataFrame} {c₂ : Cache} {gs₁ : List Game} {g : Game}
    {gs₂ : List Game} {fr : FetchResult}
    (hload : load_input_csv csv = .ok games)
    (hsplit : games = gs₁ ++ g :: gs₂)
    (hfr : get_game_page_html g.appid net keyFn
      (collectRows parseResult year net keyFn uc gs₁ cache).2 uc = .ok fr)
    (hparse : parse_year_data_from_html fr.html year = [])
    (hrun : collect_one_year csv year net keyFn cache uc = .ok (df, c₂)) :
    (∀ (html : Html) (y : Int),
      (∀ cells ∈ html, cells.length < 5 ∨ (cells.getD 0 "").toLower = "last 30 days" ∨
        parseMonthYear (cells.getD 0 "") = none ∨
        ∀ ym m, parseMonthYear (cells.getD 0 "") = some (ym, m) → ym ≠ y) →
      parse_year_data_from_html html y = []) ∧
    df.rows.countP (isForGame g) = 1 ∧
    df.rows.countP (isSentinelFor g Status.no_data_for_year) = 1 := by
  have hparser : ∀ (html : Html) (y : Int),
      (∀ cells ∈ html, cells.length < 5 ∨ (cells.getD 0 "").toLower = "last 30 days" ∨
        parseMonthYear (cells.getD 0 "") = none ∨
        ∀ ym m, parseMonthYear (cells.getD 0 "") = some (ym, m) → ym ≠ y) →
      parse_year_data_from_html html y = [] := by
    intro html y hall
    unfold parse_year_data_from_html
    have hnil : html.filterMap (fun cells => parseRowCells cells y) = [] := by
      rw [List.filterMap_eq_nil_iff]
      intro cells hcells
      rcases hall cells hcells with h | h | h | h
      · exact parseRowCells_skip_short h
      · exact parseRowCells_skip_last30 h
      · exact parseRowCells_skip_noparse h
      · cases hmy : parseMonthYear (cells.getD 0 "") with
        | none => exact parseRowCells_skip_noparse hmy
        | some p => exact parseRowCells_skip_wrongyear hmy (h p.1 p.2 (by rw [hmy]))
    rw [hnil]
    rfl
  refine ⟨hparser, ?_⟩
  subst hsplit
  rw [collect_one_year_ok year net keyFn cache uc hload] at hrun
  simp only [Except.ok.injEq, Prod.mk.injEq] at hrun
  obtain ⟨hdf, -⟩ := hrun
  rw [← hdf]
  have hnd := load_input_csv_nodup hload
  obtain ⟨hne₁, hne₂⟩ := nodup_pairs_split hnd
  have hhead : (collectRows parseResult year net keyFn uc (g :: gs₂)
      (collectRows parseResult year net keyFn uc gs₁ cache).2).1 =
      sentinelRow year g .no_data_for_year ::
        (collectRows parseResult year net keyFn uc gs₂ fr.cache).1 := by
    simp only [collectRows, hfr, parseResult, hparse]
  have key : ∀ p : OutputRow → Bool, (∀ r, p r = true → isForGame g r = true) →
      p (sentinelRow year g .no_data_for_year) = true →
      (sortOutputRows (collectRows parseResult year net keyFn uc
        (gs₁ ++ g :: gs₂) cache).1).countP p = 1 := by
    intro p hp hsent
    rw [(sortOutputRows_perm _).countP_eq,
      collectRows_append parseResult year net keyFn uc gs₁ (g :: gs₂) cache]
    simp only [List.countP_append]
    rw [hhead, List.countP_cons]
    rw [collectRows_countP_zero parseResult year net keyFn uc gs₁ cache g p hp hne₁]
    rw [collectRows_countP_zero parseResult year net keyFn uc gs₂ fr.cache g p hp hne₂]
    rw [hsent]
    rfl
  exact ⟨key (isForGame g) (fun r h => h) (by simp [isForGame, sentinelRow]),
    key (isSentinelFor g Status.no_data_for_year) (fun r => isSentinelFor_isForGame)
      (by simp [isSentinelFor, sentinelRow])⟩

/-- Claim C5, witness: a one-game roster whose page has rows only for other
years yields exactly one `no_data_for_year` sentinel. -/
theorem claim_C5_witness :
    c5df.rows.countP (isForGame ⟨1, "Game A", 10⟩) = 1 ∧
    c5df.rows.countP (isSentinelFor ⟨1, "Game A", 10⟩ Status.no_data_for_year) = 1 :=
  (@claim_C5_empty_year_sentinel csvW [⟨1, "Game A", 10⟩] 2021 netNo2021 keyId [] true
    c5df c5cache [] ⟨1, "Game A", 10⟩ []
    ⟨pageNo2021, [(keyId (build_game_url 10), pageNo2021)], true, true⟩
    (by with_unfolding_all rfl) rfl (by with_unfolding_all rfl)
    (by with_unfolding_all rfl) (by with_unfolding_all rfl)).2

/-! ## Claim C2 -/

/-- A head entry whose step yields a single sentinel row contributes exactly
that one row for its `(rank, appid)` pair. -/
theorem collectRows_one_sentinel
    (parserFn : Html → Int → Except ParseError (List MonthRecord)) (year : Int)
    (net : String → Except RequestError Html) (keyFn : String → String) (uc : Bool)
    (gs₁ : List Game) (g : Game) (gs₂ : List Game) (cache : Cache) (st : Status)
    (cnext : Cache)
    (hnodup : ((gs₁ ++ g :: gs₂).map (fun g' => (g'.rank, g'.appid))).Nodup)
    (hhead : (collectRows parserFn year net keyFn uc (g :: gs₂)
        (collectRows parserFn year net keyFn uc gs₁ cache).2).1 =
      sentinelRow year g st :: (collectRows parserFn year net keyFn uc gs₂ cnext).1) :
    (collectRows parserFn year net keyFn uc (gs₁ ++ g :: gs₂) cache).1.countP
      (isForGame g) = 1 ∧
    (collectRows parserFn year net keyFn uc (gs₁ ++ g :: gs₂) cache).1.countP
      (isSentinelFor g st) = 1 := by
  obtain ⟨hne₁, hne₂⟩ := nodup_pairs_split hnodup
  have key : ∀ p : OutputRow → Bool, (∀ r, p r = true → isForGame g r = true) →
      p (sentinelRow year g st) = true →
      (collectRows parserFn year net keyFn uc (gs₁ ++ g :: gs₂) cache).1.countP p = 1 := by
    intro p hp hsent
    rw [collectRows_append parserFn year net keyFn uc gs₁ (g :: gs₂) cache]
    simp only [List.countP_append]
    rw [hhead, List.countP_cons]
    rw [collectRows_countP_zero parserFn year net keyFn uc gs₁ cache g p hp hne₁]
    rw [collectRows_countP_zero parserFn year net keyFn uc gs₂ cnext g p hp hne₂]
    rw [hsent]
    rfl
  exact ⟨key _ (fun r h => h) (by simp [isForGame, sentinelRow]),
    key _ (fun r => isSentinelFor_isForGame) (by simp [isSentinelFor, sentinelRow])⟩

/-- Claim C2 (amended): provided the roster CSV loads and validates,
`collect_one_year` never raises.  Within the per-game loop, a fetch failure on
an entry is converted into exactly one sentinel row with
`status=request_error` and month/avg/peak all `None`, a parse failure into
exactly one sentinel row with `status=parse_error`, and every entry of the
roster — including those after a failing one — still contributes a row, so a
failure on one game never aborts the year's batch.  (A malformed roster CSV
does raise out of `collect_one_year` before any entry is processed — see the
counterexample.) -/
theorem claim_C2_per_game_failure_recovery
    (parserFn : Html → Int → Except ParseError (List MonthRecord)) (year : Int)
    (net : String → Except RequestError Html) (keyFn : String → String) (uc : Bool)
    (cache : Cache) (gs₁ : List Game) (g : Game) (gs₂ : List Game)
    (hnodup : ((gs₁ ++ g :: gs₂).map (fun g' => (g'.rank, g'.appid))).Nodup) :
    (∀ e, get_game_page_html g.appid net keyFn
        (collectRows parserFn year net keyFn uc gs₁ cache).2 uc = .error e →
      (collectRows parserFn year net keyFn uc (gs₁ ++ g :: gs₂) cache).1.countP
        (isForGame g) = 1 ∧
      (collectRows parserFn year net keyFn uc (gs₁ ++ g :: gs₂) cache).1.countP
        (isSentinelFor g Status.request_error) = 1) ∧
    (∀ fr pe, get_game_page_html g.appid net keyFn
        (collectRows parserFn year net keyFn uc gs₁ cache).2 uc = .ok fr →
      parserFn fr.html year = .error pe →
      (collectRows parserFn year net keyFn uc (gs₁ ++ g :: gs₂) cache).1.countP
        (isForGame g) = 1 ∧
      (collectRows parserFn year net keyFn uc (gs₁ ++ g :: gs₂) cache).1.countP
        (isSentinelFor g Status.parse_error) = 1) ∧
    (∀ g' ∈ gs₁ ++ g :: gs₂, ∃ r ∈ (collectRows parserFn year net keyFn uc
        (gs₁ ++ g :: gs₂) cache).1,
      r.rank = g'.rank ∧ r.name = g'.name ∧ r.appid = g'.appid) ∧
    (∀ (csv : InputCsv) (games : List Game) (c : Cache),
      load_input_csv csv = .ok games →
      ∃ df c₂, collect_one_year csv year net keyFn c uc = .ok (df, c₂)) := by
  refine ⟨?_, ?_, ?_, ?_⟩
  · intro e herr
    refine collectRows_one_sentinel parserFn year net keyFn uc gs₁ g gs₂ cache
      Status.request_error (collectRows parserFn year net keyFn uc gs₁ cache).2
      hnodup ?_
    simp only [collectRows, herr]
  · intro fr pe hok hpe
    refine collectRows_one_sentinel parserFn year net keyFn uc gs₁ g gs₂ cache
      Status.parse_error fr.cache hnodup ?_
    simp only [collectRows, hok, hpe]
  · intro g' hg'
    exact collectRows_exists_row parserFn year net keyFn uc _ cache hg'
  · intro csv games c hloadg
    exact ⟨_, _, collect_one_year_ok year net keyFn c uc hloadg⟩

/-- Claim C2, counterexample to the unamended claim: on a roster CSV missing
the required `appid` column, `collect_one_year` raises the validation error
instead of returning rows. -/
theorem claim_C2_counterexample :
    collect_one_year csvBad 2021 netW keyId [] true =
      .error ⟨"missing required columns"⟩ := by
  with_unfolding_all rfl

/-- Claim C2, witness: in the two-game roster, the unreachable second game
yields exactly one `request_error` sentinel, and the collector returns `ok`
on the loaded roster. -/
theorem claim_C2_witness :
    (collectRows parseResult 2021 netW keyId true
      ([⟨1, "Game A", 10⟩] ++ ⟨2, "Game B", 20⟩ :: []) []).1.countP
      (isForGame ⟨2, "Game B", 20⟩) = 1 ∧
    (collectRows parseResult 2021 netW keyId true
      ([⟨1, "Game A", 10⟩] ++ ⟨2, "Game B", 20⟩ :: []) []).1.countP
      (isSentinelFor ⟨2, "Game B", 20⟩ Status.request_error) = 1 ∧
    ∃ df c₂, collect_one_year csvTwo 2021 netW keyId [] true = .ok (df, c₂) :=
  have hmain := claim_C2_per_game_failure_recovery parseResult 2021 netW keyId true
    [] [⟨1, "Game A", 10⟩] ⟨2, "Game B", 20⟩ [] (by decide)
  have herr := hmain.1 ⟨"HTTP 500"⟩ (by with_unfolding_all rfl)
  ⟨herr.1, herr.2, hmain.2.2.2 csvTwo gamesTwo [] (by with_unfolding_all rfl)⟩

/-! ## Year-range lemmas -/

theorem combineParts_columns (parts : List (Int × DataFrame)) :
    (combineParts parts).columns = output_columns := by
  unfold combineParts
  split <;> rfl

theorem combineParts_rows (parts : List (Int × DataFrame)) :
    (combineParts parts).rows = (parts.map (fun p => p.2.rows)).flatten := by
  unfold combineParts
  split
  next h => simp [List.isEmpty_iff.mp h]
  next => rfl

theorem collectYears_all_absent (rosters : Int → Option InputCsv)
    (net : String → Except RequestError Html) (keyFn : String → String) (uc : Bool)
    (ys : List Int) (c : Cache) (h : ∀ y ∈ ys, rosters y = none) :
    collectYears rosters net keyFn uc ys c = .ok ([], c) := by
  induction ys with
  | nil => rfl
  | cons y tl ih =>
    simp only [collectYears, h y (List.mem_cons_self y tl)]
    exact ih (fun y' hy' => h y' (List.mem_cons_of_mem y hy'))

theorem yearList_sorted (s e : Int) : List.Sorted (· < ·) (yearList s e) := by
  unfold yearList
  have h : List.Pairwise (· < ·) (List.range (e + 1 - s).toNat) := List.pairwise_lt_range _
  have h2 : List.Pairwise (fun a b : Nat => (s + (a : Int)) < (s + (b : Int)))
      (List.range (e + 1 - s).toNat) := h.imp (fun {a b} hab => by omega)
  apply List.pairwise_map.mpr
  exact h2

/-- Every present year of the list is processed, in order, each producing a
DataFrame with the output schema. -/
theorem collectYears_processed (rosters : Int → Option InputCsv)
    (net : String → Except RequestError Html) (keyFn : String → String) (uc : Bool)
    (hvalid : ∀ y csv, rosters y = some csv → ∃ games, load_input_csv csv = .ok games) :
    ∀ (ys : List Int) (c : Cache), ∃ parts c₂,
      collectYears rosters net keyFn uc ys c = .ok (parts, c₂) ∧
      parts.map (fun p => p.1) = ys.filter (fun y => (rosters y).isSome) ∧
      ∀ pr ∈ parts, pr.2.columns = output_columns := by
  intro ys
  induction ys with
  | nil => exact fun c => ⟨[], c, rfl, rfl, by simp⟩
  | cons y tl ih =>
    intro c
    cases hro : rosters y with
    | none =>
      obtain ⟨parts, c₂, hrun, hmap, hcols⟩ := ih c
      refine ⟨parts, c₂, ?_, ?_, hcols⟩
      · simp only [collectYears, hro]
        exact hrun
      · simp [List.filter_cons, hro, hmap]
    | some csv =>
      obtain ⟨games, hload⟩ := hvalid y csv hro
      obtain ⟨parts, c₂, hrun, hmap, hcols⟩ :=
        ih (collectRows parseResult y net keyFn uc games c).2
      refine ⟨(y, ⟨output_columns,
        sortOutputRows (collectRows parseResult y net keyFn uc games c).1⟩) :: parts,
        c₂, ?_, ?_, ?_⟩
      · simp only [collectYears, hro, collect_one_year_ok y net keyFn c uc hload, hrun]
      · simp [List.filter_cons, hro, hmap]
      · intro pr hpr
        rcases List.mem_cons.mp hpr with rfl | hpr'
        · rfl
        · exact hcols pr hpr'

/-! ## Claim C8 -/

/-- Claim C8: the orchestrator iterates exactly the present years of the
inclusive range `start_year..end_year` in ascending order (absent roster files
are skipped without failing), the combined dataset always carries the full
eight-column schema, its rows are the concatenation of the per-year rows, and
when no year has a roster it returns the empty dataset with the full schema
rather than raising. -/
theorem claim_C8_range_skips_and_schema (s e : Int) (rosters : Int → Option InputCsv)
    (net : String → Except RequestError Html) (keyFn : String → String)
    (cache : Cache) (uc wc : Bool) :
    (∀ df parts c₂,
      collect_year_range s e rosters net keyFn cache uc wc = .ok (df, parts, c₂) →
      df.columns = output_columns) ∧
    ((∀ y csv, rosters y = some csv → ∃ games, load_input_csv csv = .ok games) →
      ∃ df parts c₂,
        collect_year_range s e rosters net keyFn cache uc wc = .ok (df, parts, c₂) ∧
        parts.map (fun p => p.1) = (yearList s e).filter (fun y => (rosters y).isSome) ∧
        List.Sorted (· < ·) (parts.map (fun p => p.1)) ∧
        df.rows = (parts.map (fun p => p.2.rows)).flatten) ∧
    ((∀ y ∈ yearList s e, rosters y = none) →
      collect_year_range s e rosters net keyFn cache uc wc =
        .ok (⟨output_columns, []⟩, [], cache)) := by
  refine ⟨?_, ?_, ?_⟩
  · intro df parts c₂ h
    unfold collect_year_range at h
    cases hys : collectYears rosters net keyFn uc (yearList s e) cache with
    | error err => rw [hys] at h; cases h
    | ok pc =>
      rw [hys] at h
      simp only [Except.ok.injEq, Prod.mk.injEq] at h
      rw [← h.1]
      exact combineParts_columns pc.1
  · intro hvalid
    obtain ⟨parts, c₂, hrun, hmap, -⟩ :=
      collectYears_processed rosters net keyFn uc hvalid (yearList s e) cache
    refine ⟨combineParts parts, parts, c₂, ?_, hmap, ?_, combineParts_rows parts⟩
    · unfold collect_year_range
      rw [hrun]
    · rw [hmap]
      exact (yearList_sorted s e).filter _
  · intro hall
    unfold collect_year_range
    rw [collectYears_all_absent rosters net keyFn uc _ cache hall]
    rfl

/-- Claim C8, witness: a 2020–2021 range where only 2021 has a roster
processes exactly `[2021]`, and an all-absent 2018–2019 range returns the
empty schema-complete dataset. -/
theorem claim_C8_witness :
    (∃ df parts c₂,
      collect_year_range 2020 2021 rostersW netW keyId [] true true =
        .ok (df, parts, c₂) ∧
      parts.map (fun p => p.1) =
        (yearList 2020 2021).filter (fun y => (rostersW y).isSome) ∧
      List.Sorted (· < ·) (parts.map (fun p => p.1)) ∧
      df.rows = (parts.map (fun p => p.2.rows)).flatten) ∧
    collect_year_range 2018 2019 rostersW netW keyId [] true true =
      .ok (⟨output_columns, []⟩, [], []) :=
  ⟨(claim_C8_range_skips_and_schema 2020 2021 rostersW netW keyId [] true true).2.1
    (fun y csv h => by
      unfold rostersW at h
      split at h
      · injection h with h
        exact ⟨[⟨1, "Game A", 10⟩], by rw [← h]; with_unfolding_all rfl⟩
      · cases h),
   (claim_C8_range_skips_and_schema 2018 2019 rostersW netW keyId [] true true).2.2
    (by decide)⟩

/-! ## Rerun (idempotence) lemmas -/

/-- Refetching a page right after a successful fetch is a pure cache hit: same
content, unchanged cache, no network, no sleep. -/
theorem gghtml_refetch_hit {a : Int} {net : String → Except RequestError Html}
    {keyFn : String → String} {c : Cache} {fr : FetchResult}
    (h : get_game_page_html a net keyFn c true = .ok fr) :
    get_game_page_html a net keyFn fr.cache true = .ok ⟨fr.html, fr.cache, false, false⟩ := by
  apply gghtml_hit
  rcases gghtml_ok_char h with ⟨hl, hcc, -, -⟩ | ⟨-, -, hcc, -, -⟩
  · rw [hcc]; exact hl
  · rw [hcc, cacheLookup_cons, if_pos rfl]

theorem collectRows_cons_cache_err
    (parserFn : Html → Int → Except ParseError (List MonthRecord)) (year : Int)
    (net : String → Except RequestError Html) (keyFn : String → String) (uc : Bool)
    (g : Game) (tl : List Game) (c : Cache) {e : RequestError}
    (hr : get_game_page_html g.appid net keyFn c uc = .error e) :
    (collectRows parserFn year net keyFn uc (g :: tl) c).2 =
      (collectRows parserFn year net keyFn uc tl c).2 := by
  simp only [collectRows, hr]

theorem collectRows_cons_cache_ok
    (parserFn : Html → Int → Except ParseError (List MonthRecord)) (year : Int)
    (net : String → Except RequestError Html) (keyFn : String → String) (uc : Bool)
    (g : Game) (tl : List Game) (c : Cache) {fr : FetchResult}
    (hr : get_game_page_html g.appid net keyFn c uc = .ok fr) :
    (collectRows parserFn year net keyFn uc (g :: tl) c).2 =
      (collectRows parserFn year net keyFn uc tl fr.cache).2 := by
  simp only [collectRows, hr]
  cases hp : parserFn fr.html year with
  | error pe => rfl
  | ok l =>
    cases l with
    | nil => rfl
    | cons pr prs => rfl

/-- Running the per-game loop again from a cache that contains every binding
of the first run's final cache — and whose extra bindings are all justified by
the (deterministic) network — reproduces the same rows and leaves the cache
untouched. -/
theorem collectRows_replay
    (parserFn : Html → Int → Except ParseError (List MonthRecord)) (year : Int)
    (net : String → Except RequestError Html) (keyFn : String → String)
    (hInj : Function.Injective keyFn) :
    ∀ (gs : List Game) (c D : Cache),
    (∀ k v, cacheLookup (collectRows parserFn year net keyFn true gs c).2 k = some v →
      cacheLookup D k = some v) →
    (∀ k v, cacheLookup D k = some v →
      cacheLookup c k = some v ∨ ∃ u, k = keyFn u ∧ net u = .ok v) →
    collectRows parserFn year net keyFn true gs D =
      ((collectRows parserFn year net keyFn true gs c).1, D) := by
  intro gs
  induction gs with
  | nil => intro c D hD₁ hD₂; simp [collectRows]
  | cons g tl ih =>
    intro c D hD₁ hD₂
    cases hr : get_game_page_html g.appid net keyFn c true with
    | error e =>
      obtain ⟨hnone, hnet⟩ := gghtml_err_char hr
      have hDnone : cacheLookup D (keyFn (build_game_url g.appid)) = none := by
        cases hd : cacheLookup D (keyFn (build_game_url g.appid)) with
        | none => rfl
        | some v =>
          rcases hD₂ _ _ hd with h | ⟨u, hu, hnetu⟩
          · rw [hnone] at h; cases h
          · rw [← hInj hu] at hnetu
            rw [hnet] at hnetu
            cases hnetu
      have hr2 : get_game_page_html g.appid net keyFn D true = .error e :=
        gghtml_miss_err hDnone hnet
      have hD₁' : ∀ k v,
          cacheLookup (collectRows parserFn year net keyFn true tl c).2 k = some v →
          cacheLookup D k = some v := by
        intro k v h
        apply hD₁ k v
        rw [collectRows_cons_cache_err parserFn year net keyFn true g tl c hr]
        exact h
      have hih := ih c D hD₁' hD₂
      simp only [collectRows, hr, hr2, hih]
    | ok fr =>
      have hkey : cacheLookup fr.cache (keyFn (build_game_url g.appid)) = some fr.html := by
        rcases gghtml_ok_char hr with ⟨hl, hcc, -, -⟩ | ⟨-, -, hcc, -, -⟩
        · rw [hcc]; exact hl
        · rw [hcc, cacheLookup_cons, if_pos rfl]
      have hD₁' : ∀ k v,
          cacheLookup (collectRows parserFn year net keyFn true tl fr.cache).2 k = some v →
          cacheLookup D k = some v := by
        intro k v h
        apply hD₁ k v
        rw [collectRows_cons_cache_ok parserFn year net keyFn true g tl c hr]
        exact h
      have hDkey : cacheLookup D (keyFn (build_game_url g.appid)) = some fr.html :=
        hD₁' _ _ (collectRows_mono parserFn year net keyFn tl hkey)
      have hr2 : get_game_page_html g.appid net keyFn D true =
          .ok ⟨fr.html, D, false, false⟩ := gghtml_hit hDkey
      have hD₂' : ∀ k v, cacheLookup D k = some v →
          cacheLookup fr.cache k = some v ∨ ∃ u, k = keyFn u ∧ net u = .ok v := by
        intro k v h
        rcases hD₂ k v h with h' | h'
        · exact Or.inl (gghtml_mono hr h')
        · exact Or.inr h'
      have hih := ih fr.cache D hD₁' hD₂'
      simp only [collectRows, hr, hr2]
      cases hp : parserFn fr.html year with
      | error pe => simp only [hp, hih]
      | ok l =>
        cases l with
        | nil => simp only [hp, hih]
        | cons pr prs => simp only [hp, hih]

theorem collect_one_year_mono {csv : InputCsv} {year : Int}
    {net : String → Except RequestError Html} {keyFn : String → String}
    {c : Cache} {df : DataFrame} {c₂ : Cache} {k : String} {v : Html}
    (hrun : collect_one_year csv year net keyFn c true = .ok (df, c₂))
    (hk : cacheLookup c k = some v) : cacheLookup c₂ k = some v := by
  cases hload : load_input_csv csv with
  | error e => rw [collect_one_year_err year net keyFn c true hload] at hrun; cases hrun
  | ok games =>
    rw [collect_one_year_ok year net keyFn c true hload] at hrun
    simp only [Except.ok.injEq, Prod.mk.injEq] at hrun
    rw [← hrun.2]
    exact collectRows_mono parseResult year net keyFn games hk

theorem collect_one_year_prov {csv : InputCsv} {year : Int}
    {net : String → Except RequestError Html} {keyFn : String → String}
    {c : Cache} {df : DataFrame} {c₂ : Cache} {k : String} {v : Html}
    (hrun : collect_one_year csv year net keyFn c true = .ok (df, c₂))
    (hk : cacheLookup c₂ k = some v) :
    cacheLookup c k = some v ∨ ∃ u, k = keyFn u ∧ net u = .ok v := by
  cases hload : load_input_csv csv with
  | error e => rw [collect_one_year_err year net keyFn c true hload] at hrun; cases hrun
  | ok games =>
    rw [collect_one_year_ok year net keyFn c true hload] at hrun
    simp only [Except.ok.injEq, Prod.mk.injEq] at hrun
    rw [← hrun.2] at hk
    exact collectRows_prov parseResult year net keyFn games hk

theorem collect_one_year_replay {csv : InputCsv} {year : Int}
    {net : String → Except RequestError Html} {keyFn : String → String}
    (hInj : Function.Injective keyFn) {c D : Cache} {df : DataFrame} {c₂ : Cache}
    (hrun : collect_one_year csv year net keyFn c true = .ok (df, c₂))
    (hD₁ : ∀ k v, cacheLookup c₂ k = some v → cacheLookup D k = some v)
    (hD₂ : ∀ k v, cacheLookup D k = some v →
      cacheLookup c k = some v ∨ ∃ u, k = keyFn u ∧ net u = .ok v) :
    collect_one_year csv year net keyFn D true = .ok (df, D) := by
  cases hload : load_input_csv csv with
  | error e => rw [collect_one_year_err year net keyFn c true hload] at hrun; cases hrun
  | ok games =>
    rw [collect_one_year_ok year net keyFn c true hload] at hrun
    simp only [Except.ok.injEq, Prod.mk.injEq] at hrun
    obtain ⟨hdf, hc⟩ := hrun
    have hD₁' : ∀ k v,
        cacheLookup (collectRows parseResult year net keyFn true games c).2 k = some v →
        cacheLookup D k = some v := by
      intro k v h
      exact hD₁ k v (by rw [← hc]; exact h)
    have hrep := collectRows_replay parseResult year net keyFn hInj games c D hD₁' hD₂
    rw [collect_one_year_ok year net keyFn D true hload, hrep]
    rw [← hdf]

theorem collectYears_mono {rosters : Int → Option InputCsv}
    {net : String → Except RequestError Html} {keyFn : String → String}
    (ys : List Int) {c : Cache} {parts : List (Int × DataFrame)} {c₂ : Cache}
    (hrun : collectYears rosters net keyFn true ys c = .ok (parts, c₂))
    {k : String} {v : Html} (hk : cacheLookup c k = some v) :
    cacheLookup c₂ k = some v := by
  induction ys generalizing c parts with
  | nil =>
    simp only [collectYears, Except.ok.injEq, Prod.mk.injEq] at hrun
    rw [← hrun.2]
    exact hk
  | cons y tl ih =>
    cases hro : rosters y with
    | none =>
      simp only [collectYears, hro] at hrun
      exact ih hrun hk
    | some csv =>
      simp only [collectYears, hro] at hrun
      cases h1 : collect_one_year csv y net keyFn c true with
      | error e => simp only [h1] at hrun; cases hrun
      | ok p =>
        obtain ⟨df1, c1⟩ := p
        simp only [h1] at hrun
        cases h2 : collectYears rosters net keyFn true tl c1 with
        | error e => simp only [h2] at hrun; cases hrun
        | ok q =>
          obtain ⟨parts1, c₂1⟩ := q
          simp only [h2, Except.ok.injEq, Prod.mk.injEq] at hrun
          obtain ⟨-, hc2⟩ := hrun
          subst hc2
          exact ih h2 (collect_one_year_mono h1 hk)

theorem collectYears_prov {rosters : Int → Option InputCsv}
    {net : String → Except RequestError Html} {keyFn : String → String}
    (ys : List Int) {c : Cache} {parts : List (Int × DataFrame)} {c₂ : Cache}
    (hrun : collectYears rosters net keyFn true ys c = .ok (parts, c₂))
    {k : String} {v : Html} (hk : cacheLookup c₂ k = some v) :
    cacheLookup c k = some v ∨ ∃ u, k = keyFn u ∧ net u = .ok v := by
  induction ys generalizing c parts with
  | nil =>
    simp only [collectYears, Except.ok.injEq, Prod.mk.injEq] at hrun
    rw [← hrun.2] at hk
    exact Or.inl hk
  | cons y tl ih =>
    cases hro : rosters y with
    | none =>
      simp only [collectYears, hro] at hrun
      exact ih hrun
    | some csv =>
      simp only [collectYears, hro] at hrun
      cases h1 : collect_one_year csv y net keyFn c true with
      | error e => simp only [h1] at hrun; cases hrun
      | ok p =>
        obtain ⟨df1, c1⟩ := p
        simp only [h1] at hrun
        cases h2 : collectYears rosters net keyFn true tl c1 with
        | error e => simp only [h2] at hrun; cases hrun
        | ok q =>
          obtain ⟨parts1, c₂1⟩ := q
          simp only [h2, Except.ok.injEq, Prod.mk.injEq] at hrun
          obtain ⟨-, hc2⟩ := hrun
          subst hc2
          rcases ih h2 with h | h
          · exact collect_one_year_prov h1 h
          · exact Or.inr h

theorem collectYears_replay {rosters : Int → Option InputCsv}
    {net : String → Except RequestError Html} {keyFn : String → String}
    (hInj : Function.Injective keyFn) :
    ∀ (ys : List Int) {c D : Cache} {parts : List (Int × DataFrame)} {c₂ : Cache},
    collectYears rosters net keyFn true ys c = .ok (parts, c₂) →
    (∀ k v, cacheLookup c₂ k = some v → cacheLookup D k = some v) →
    (∀ k v, cacheLookup D k = some v →
      cacheLookup c k = some v ∨ ∃ u, k = keyFn u ∧ net u = .ok v) →
    collectYears rosters net keyFn true ys D = .ok (parts, D) := by
  intro ys
  induction ys with
  | nil =>
    intro c D parts c₂ hrun hD₁ hD₂
    simp only [collectYears, Except.ok.injEq, Prod.mk.injEq] at hrun
    rw [← hrun.1]
    rfl
  | cons y tl ih =>
    intro c D parts c₂ hrun hD₁ hD₂
    cases hro : rosters y with
    | none =>
      simp only [collectYears, hro] at hrun ⊢
      exact ih hrun hD₁ hD₂
    | some csv =>
      simp only [collectYears, hro] at hrun ⊢
      cases h1 : collect_one_year csv y net keyFn c true with
      | error e => simp only [h1] at hrun; cases hrun
      | ok p =>
        obtain ⟨df1, c1⟩ := p
        simp only [h1] at hrun
        cases h2 : collectYears rosters net keyFn true tl c1 with
        | error e => simp only [h2] at hrun; cases hrun
        | ok q =>
          obtain ⟨parts1, c₂1⟩ := q
          simp only [h2, Except.ok.injEq, Prod.mk.injEq] at hrun
          have hcq : c₂1 = c₂ := hrun.2
          have hD₁p : ∀ k v, cacheLookup c1 k = some v → cacheLookup D k = some v := by
            intro k v h
            exact hD₁ k v (hcq ▸ collectYears_mono tl h2 h)
          have hhead := collect_one_year_replay hInj h1 hD₁p hD₂
          have hD₁q : ∀ k v, cacheLookup c₂1 k = some v → cacheLookup D k = some v := by
            intro k v h
            exact hD₁ k v (hcq ▸ h)
          have hD₂p : ∀ k v, cacheLookup D k = some v →
              cacheLookup c1 k = some v ∨ ∃ u, k = keyFn u ∧ net u = .ok v := by
            intro k v h
            rcases hD₂ k v h with h' | h'
            · exact Or.inl (collect_one_year_mono h1 h')
            · exact Or.inr h'
          have htail := ih h2 hD₁q hD₂p
          simp only [hhead, htail]
          rw [← hrun.1]

/-! ## Claim C3 -/

/-- Claim C3: rerunning the orchestrator with the same arguments (same roster
source, same deterministic network, collision-free key function) and
`use_cache=true`, starting from the cache produced by a successful first run,
returns exactly the same combined dataset, the same per-year datasets, and the
same cache; moreover any page fetched successfully is afterwards served as a
pure cache hit — no network request, no sleep. -/
theorem claim_C3_rerun_identical {s e : Int} {rosters : Int → Option InputCsv}
    {net : String → Except RequestError Html} {keyFn : String → String}
    {cache : Cache} {wc : Bool} {df : DataFrame} {parts : List (Int × DataFrame)}
    {c₂ : Cache} (hInj : Function.Injective keyFn)
    (hrun : collect_year_range s e rosters net keyFn cache true wc = .ok (df, parts, c₂)) :
    collect_year_range s e rosters net keyFn c₂ true wc = .ok (df, parts, c₂) ∧
    (∀ (a : Int) (c : Cache) (fr : FetchResult),
      get_game_page_html a net keyFn c true = .ok fr →
      get_game_page_html a net keyFn fr.cache true =
        .ok ⟨fr.html, fr.cache, false, false⟩) := by
  refine ⟨?_, fun a c fr h => gghtml_refetch_hit h⟩
  unfold collect_year_range at hrun ⊢
  cases hys : collectYears rosters net keyFn true (yearList s e) cache with
  | error err => rw [hys] at hrun; cases hrun
  | ok pc =>
    rw [hys] at hrun
    simp only [Except.ok.injEq, Prod.mk.injEq] at hrun
    obtain ⟨hdf, hparts, hc⟩ := hrun
    have hys' : collectYears rosters net keyFn true (yearList s e) cache =
        .ok (pc.1, pc.2) := by rw [hys]
    have hrep := collectYears_replay hInj (yearList s e) hys'
      (fun k v h => hc ▸ h) (fun k v h => collectYears_prov (yearList s e) hys' h)
    rw [hc] at hrep
    simp only [hrep]
    rw [← hdf, ← hparts]

/-- Claim C3, witness: the one-year witness run replayed from its own final
cache returns identical outputs, and the witness fetch is afterwards a cache
hit. -/
theorem claim_C3_witness :
    collect_year_range 2021 2021 rostersW netW keyId c3cache true true =
      .ok (c3df, c3parts, c3cache) ∧
    get_game_page_html 10 netW keyId
      [(keyId (build_game_url 10), pageW)] true =
      .ok ⟨pageW, [(keyId (build_game_url 10), pageW)], false, false⟩ :=
  have h := claim_C3_rerun_identical (fun a b hab => hab)
    (show collect_year_range 2021 2021 rostersW netW keyId [] true true =
      .ok (c3df, c3parts, c3cache) by with_unfolding_all rfl)
  ⟨h.1, h.2 10 [] ⟨pageW, [(keyId (build_game_url 10), pageW)], true, true⟩
    (by with_unfolding_all rfl)⟩

end SteamCharts
